import Mathlib

/-!
# certspotter-client: the `api` package

A shallow embedding of `api/certspotter.go` and a verification of its
natural-language specification.

Go values are embedded as follows.

* `string` and `[]byte` are Lean `String`s (texts that are valid UTF-8).
* `uint64` and `int` are `Nat` and `Int`.
* A Go slice is an `Option (List α)`: `none` is the nil slice, `some l` a
  non-nil slice holding `l` (so `some []` is the empty, non-nil slice).
* A Go `(value, error)` pair is a pair of fields, the error an
  `Option GoError` (`none` is the nil error).
* The transport (`HTTPClient`) is a function from the request to what `Do`
  returns; every request handed to it is recorded in a `calls` list, which is
  how "no call was made" is stated.
* What the package takes from outside itself and whose behaviour is left
  open (is this text an IP address, does this URL parse, which transport is
  the default one) is a parameter, `Env`.
-/

namespace Certspotter

/-! ## Errors -/

/-- The error values that can leave the package, by their dynamic Go type.
`invalidDomainVar` is the one value held by the package variable
`ErrorInvalidDomain`; `errorf` is a fresh `*errors.errorString` made by a call
of `fmt.Errorf` (it has nothing but its message text); the `json…` values are
what `encoding/json` returns; `urlError` is what `http.NewRequest` returns for
a URL that does not parse; `external` is any error value made outside the
package (by the transport or by the reader of the response body). -/
inductive GoError where
  | invalidDomainVar
  | errorf (msg : String)
  | urlError (raw : String)
  | jsonSyntaxError
  | jsonUnmarshalTypeError
  | jsonStringTagError
  | external (typ : String) (msg : String)
  deriving DecidableEq

/-- The package variable `ErrorInvalidDomain`. -/
def ErrorInvalidDomain : GoError := GoError.invalidDomainVar

/-- The dynamic type of an error value, as `%T` prints it. The sentinel, the
`fmt.Errorf` values and the `,string` complaint of `encoding/json` all have
the type `*errors.errorString`. -/
def GoError.dynType : GoError → String
  | .invalidDomainVar => "*errors.errorString"
  | .errorf _ => "*errors.errorString"
  | .urlError _ => "*url.Error"
  | .jsonSyntaxError => "*json.SyntaxError"
  | .jsonUnmarshalTypeError => "*json.UnmarshalTypeError"
  | .jsonStringTagError => "*errors.errorString"
  | .external typ _ => typ

/-- Whether `errors.Is(err, ErrorInvalidDomain)` holds: a `*errors.errorString`
is compared by pointer, so only the package variable itself qualifies. -/
def GoError.isInvalidDomain : GoError → Bool
  | .invalidDomainVar => true
  | _ => false

/-! ## `encoding/json`: reading the text

The scanner of `encoding/json` is a state machine fed one byte at a time
(`scanner.step`); `Unmarshal` first runs it over the whole input
(`checkValid`) and only then decodes. The model runs the same state machine
once and lets it build the value tree as it goes. -/

/-- A JSON value as read from the text. A number keeps its literal text, a
string is already unquoted. -/
inductive Json where
  | null
  | bool (b : Bool)
  | num (lit : String)
  | str (s : String)
  | arr (elems : List Json)
  | obj (members : List (String × Json))

/-- An open array or object of the scanner's `parseState` stack, with what it
has collected so far (newest first). An object holds the key that has been
read and whose value has not been completed yet. -/
inductive Frame where
  | arr (done : List Json)
  | obj (done : List (String × Json)) (key : Option String)

/-- The step function the scanner is in (`stateBeginValue`, `stateInString`,
`state1`, ...). `lit` stands for the states inside `true`, `false` and `null`:
the letters still expected and the value they spell. -/
inductive Mode where
  | beginValue
  | beginValueOrEmpty
  | beginString
  | beginStringOrEmpty
  | endValue
  | endTop
  | inString
  | inStringEsc
  | inStringEscU (seen : Nat) (val : Nat)
  | neg
  | num0
  | num1
  | dot
  | dot0
  | expE
  | expSign
  | exp0
  | lit (rest : List Char) (val : Json)

/-- The scanner: its step function, its stack, the text of the literal being
read (newest first), a `\u` high surrogate that waits for its low half, and
the top-level value once it is complete. -/
structure Scan where
  mode : Mode
  stack : List Frame
  acc : List Char
  pend : Option Nat
  top : Option Json

/-- The constant `maxNestingDepth`. -/
def maxNestingDepth : Nat := 10000

/-- The function `isSpace` of the scanner. -/
def isSpace (c : Char) : Bool := c == ' ' || c == '\t' || c == '\r' || c == '\n'

/-- The value of a hexadecimal digit, as `getu4` reads it. -/
def hexVal (c : Char) : Option Nat :=
  if '0' ≤ c ∧ c ≤ '9' then some (c.toNat - 48)
  else if 'a' ≤ c ∧ c ≤ 'f' then some (c.toNat - 87)
  else if 'A' ≤ c ∧ c ≤ 'F' then some (c.toNat - 55)
  else none

/-- The rune `unicode.ReplacementChar`. -/
def replacementChar : Char := Char.ofNat 0xFFFD

/-- The accumulated text with a waiting high surrogate given up: a surrogate
that is not followed by its low half becomes the replacement rune. -/
def flushPend (s : Scan) : List Char :=
  match s.pend with
  | some _ => replacementChar :: s.acc
  | none => s.acc

/-- The rune of a completed escape `\uXXXX` joins the text, as in `unquote`:
a high surrogate waits for the next escape, a low one completes a waiting
high one (`utf16.DecodeRune`), a surrogate without partner is replaced. -/
def pushRune (s : Scan) (r : Nat) : Scan :=
  let isHigh := 0xD800 ≤ r ∧ r < 0xDC00
  let isLow := 0xDC00 ≤ r ∧ r < 0xE000
  match s.pend with
  | some hi =>
    if isLow then
      { s with mode := .inString, pend := none,
               acc := Char.ofNat ((hi - 0xD800) * 0x400 + (r - 0xDC00) + 0x10000) :: s.acc }
    else if isHigh then
      { s with mode := .inString, pend := some r, acc := replacementChar :: s.acc }
    else
      { s with mode := .inString, pend := none, acc := Char.ofNat r :: replacementChar :: s.acc }
  | none =>
    if isHigh then { s with mode := .inString, pend := some r }
    else if isLow then { s with mode := .inString, acc := replacementChar :: s.acc }
    else { s with mode := .inString, acc := Char.ofNat r :: s.acc }

/-- A completed value goes where the stack says: to the top level, into the
open array, or into the open object as the key just read or as the value of
the waiting key. -/
def deliver (s : Scan) (v : Json) : Option Scan :=
  match s.stack with
  | [] => some { s with mode := .endValue, acc := [], pend := none, top := some v }
  | .arr done :: rest =>
    some { s with mode := .endValue, acc := [], pend := none, stack := .arr (v :: done) :: rest }
  | .obj done (some k) :: rest =>
    some { s with mode := .endValue, acc := [], pend := none,
                  stack := .obj ((k, v) :: done) none :: rest }
  | .obj done none :: rest =>
    match v with
    | .str k =>
      some { s with mode := .endValue, acc := [], pend := none, stack := .obj done (some k) :: rest }
    | _ => none

/-- The function `pushParseState`: one more open array or object, unless that
exceeds `maxNestingDepth`. -/
def pushFrame (s : Scan) (f : Frame) (next : Mode) : Option Scan :=
  if s.stack.length + 1 ≤ maxNestingDepth then
    some { s with mode := next, stack := f :: s.stack }
  else none

/-- The function `stateEndValue`, with `stateEndTop` for an empty stack. -/
def stepEndValue (s : Scan) (c : Char) : Option Scan :=
  match s.stack with
  | [] => if isSpace c then some { s with mode := .endTop } else none
  | .obj done (some k) :: rest =>
    if isSpace c then some { s with mode := .endValue }
    else if c == ':' then some { s with mode := .beginValue, stack := .obj done (some k) :: rest }
    else none
  | .obj done none :: rest =>
    if isSpace c then some { s with mode := .endValue }
    else if c == ',' then some { s with mode := .beginString }
    else if c == '}' then deliver { s with stack := rest } (.obj done.reverse)
    else none
  | .arr done :: rest =>
    if isSpace c then some { s with mode := .endValue }
    else if c == ',' then some { s with mode := .beginValue }
    else if c == ']' then deliver { s with stack := rest } (.arr done.reverse)
    else none

/-- The end of a number literal: the number is delivered and the byte that
ended it is read by `stateEndValue`. -/
def endNumber (s : Scan) (c : Char) : Option Scan :=
  match deliver s (.num (String.mk s.acc.reverse)) with
  | some s1 => stepEndValue s1 c
  | none => none

/-- The function `stateBeginString`. -/
def stepBeginString (s : Scan) (c : Char) : Option Scan :=
  if isSpace c then some s
  else if c == '"' then some { s with mode := .inString, acc := [], pend := none }
  else none

/-- The function `stateBeginValue`. -/
def stepBeginValue (s : Scan) (c : Char) : Option Scan :=
  if isSpace c then some s
  else if c == '\x7b' then pushFrame s (.obj [] none) .beginStringOrEmpty
  else if c == '[' then pushFrame s (.arr []) .beginValueOrEmpty
  else if c == '"' then some { s with mode := .inString, acc := [], pend := none }
  else if c == '-' then some { s with mode := .neg, acc := [c] }
  else if c == '0' then some { s with mode := .num0, acc := [c] }
  else if c == 't' then some { s with mode := .lit ['r', 'u', 'e'] (.bool true) }
  else if c == 'f' then some { s with mode := .lit ['a', 'l', 's', 'e'] (.bool false) }
  else if c == 'n' then some { s with mode := .lit ['u', 'l', 'l'] .null }
  else if '1' ≤ c ∧ c ≤ '9' then some { s with mode := .num1, acc := [c] }
  else none

/-- The function `state0`: after the integer part of a number. -/
def stepNum0 (s : Scan) (c : Char) : Option Scan :=
  if c == '.' then some { s with mode := .dot, acc := c :: s.acc }
  else if c == 'e' || c == 'E' then some { s with mode := .expE, acc := c :: s.acc }
  else endNumber s c

/-- The function `stateESign`: after the sign of an exponent. -/
def stepExpSign (s : Scan) (c : Char) : Option Scan :=
  if '0' ≤ c ∧ c ≤ '9' then some { s with mode := .exp0, acc := c :: s.acc } else none

/-- The method `scanner.step`: one byte of input. `none` is a syntax error. -/
def step (s : Scan) (c : Char) : Option Scan :=
  match s.mode with
  | .beginValue => stepBeginValue s c
  | .beginValueOrEmpty =>
    if isSpace c then some s
    else if c == ']' then stepEndValue s c
    else stepBeginValue s c
  | .beginString => stepBeginString s c
  | .beginStringOrEmpty =>
    if isSpace c then some s
    else if c == '\x7d' then stepEndValue s c
    else stepBeginString s c
  | .endValue => stepEndValue s c
  | .endTop => if isSpace c then some s else none
  | .inString =>
    if c == '"' then deliver s (.str (String.mk (flushPend s).reverse))
    else if c == '\\' then some { s with mode := .inStringEsc }
    else if c.toNat < 0x20 then none
    else some { s with acc := c :: flushPend s, pend := none }
  | .inStringEsc =>
    if c == 'u' then some { s with mode := .inStringEscU 0 0 }
    else
      let plain (r : Char) : Option Scan :=
        some { s with mode := .inString, acc := r :: flushPend s, pend := none }
      if c == 'b' then plain (Char.ofNat 8)
      else if c == 'f' then plain (Char.ofNat 12)
      else if c == 'n' then plain '\n'
      else if c == 'r' then plain '\r'
      else if c == 't' then plain '\t'
      else if c == '\\' || c == '/' || c == '"' then plain c
      else none
  | .inStringEscU seen val =>
    match hexVal c with
    | none => none
    | some h =>
      if seen < 3 then some { s with mode := .inStringEscU (seen + 1) (16 * val + h) }
      else some (pushRune s (16 * val + h))
  | .neg =>
    if c == '0' then some { s with mode := .num0, acc := c :: s.acc }
    else if '1' ≤ c ∧ c ≤ '9' then some { s with mode := .num1, acc := c :: s.acc }
    else none
  | .num0 => stepNum0 s c
  | .num1 =>
    if '0' ≤ c ∧ c ≤ '9' then some { s with acc := c :: s.acc } else stepNum0 s c
  | .dot =>
    if '0' ≤ c ∧ c ≤ '9' then some { s with mode := .dot0, acc := c :: s.acc } else none
  | .dot0 =>
    if '0' ≤ c ∧ c ≤ '9' then some { s with acc := c :: s.acc }
    else if c == 'e' || c == 'E' then some { s with mode := .expE, acc := c :: s.acc }
    else endNumber s c
  | .expE =>
    if c == '+' || c == '-' then some { s with mode := .expSign, acc := c :: s.acc }
    else stepExpSign s c
  | .expSign => stepExpSign s c
  | .exp0 =>
    if '0' ≤ c ∧ c ≤ '9' then some { s with acc := c :: s.acc } else endNumber s c
  | .lit rest v =>
    match rest with
    | [] => none
    | [x] => if c == x then deliver s v else none
    | x :: more => if c == x then some { s with mode := .lit more v } else none

/-- The scanner after `reset`. -/
def Scan.start : Scan := ⟨.beginValue, [], [], none, none⟩

/-- The scanner fed a whole text, byte after byte. -/
def scanAll : Scan → List Char → Option Scan
  | s, [] => some s
  | s, c :: cs =>
    match step s c with
    | some s1 => scanAll s1 cs
    | none => none

/-- The method `scanner.eof`: the input is over; a space is fed to complete a
pending number, and the top-level value has to be complete. -/
def finish (s : Scan) : Option Json :=
  match step s ' ' with
  | some s1 =>
    match s1.mode with
    | .endTop => s1.top
    | _ => none
  | none => none

/-- The JSON value a text spells, or `none` for a text `checkValid` refuses. -/
def parseJson (data : List Char) : Option Json :=
  match scanAll Scan.start data with
  | some s => finish s
  | none => none

/-! ## The data model -/

/-- The struct `Operator`. -/
@[ext]
structure Operator where
  Name : String
  Website : String
  deriving DecidableEq

/-- The struct `Issuer`. -/
@[ext]
structure Issuer where
  Name : String
  PubKeySHA256 : String
  FriendlyName : String
  Website : String
  CAADomains : Option (List String)
  Operator : Operator
  deriving DecidableEq

/-- The struct `Certificate` (its field `Type` is written `Type_`). -/
@[ext]
structure Certificate where
  Type_ : String
  SHA256 : String
  Data : String
  deriving DecidableEq

/-- The struct `Revocation`; the `*int` is an `Option Int`. -/
@[ext]
structure Revocation where
  Time : String
  Reason : Option Int
  CheckedAt : String
  deriving DecidableEq

/-- The struct `PubKey` (its field `Type` is written `Type_`). -/
@[ext]
structure PubKey where
  Type_ : String
  BitLength : Int
  Curve : String
  deriving DecidableEq

/-- The struct `Issuance`. -/
@[ext]
structure Issuance where
  ID : Nat
  TBSSHA256 : String
  Domains : Option (List String)
  PubKeySHA256 : String
  Issuer : Issuer
  NotBefore : String
  NotAfter : String
  Cert : Certificate
  CertDER : String
  CertSHA256 : String
  ProblemReporting : String
  Revoked : Bool
  Revocation : Revocation
  PubKey : PubKey
  deriving DecidableEq

/-- The zero value of `Operator`. -/
def Operator.zero : Operator := ⟨"", ""⟩

/-- The zero value of `Issuer`. -/
def Issuer.zero : Issuer := ⟨"", "", "", "", none, Operator.zero⟩

/-- The zero value of `Certificate`. -/
def Certificate.zero : Certificate := ⟨"", "", ""⟩

/-- The zero value of `Revocation`. -/
def Revocation.zero : Revocation := ⟨"", none, ""⟩

/-- The zero value of `PubKey`. -/
def PubKey.zero : PubKey := ⟨"", 0, ""⟩

/-- The zero value of `Issuance`. -/
def Issuance.zero : Issuance :=
  ⟨0, "", none, "", Issuer.zero, "", "", Certificate.zero, "", "", "", false,
   Revocation.zero, PubKey.zero⟩

/-! ## `encoding/json`: storing a value

`decodeState` walks the value and stores it into the destination in place.
A mismatch of types is remembered (`saveError`, the first one wins) and the
walk goes on; a few failures stop the walk at once (an error returned by
`literalStore`). -/

/-- The outcome of storing a JSON value into a destination: the destination
afterwards, with the error remembered by `saveError` if there is one; or the
error that stopped the walk (the destination is then left partly filled, and
the caller of `Unmarshal` in this package drops it). -/
inductive Store (α : Type) where
  | ok (a : α)
  | saved (a : α) (e : GoError)
  | abort (e : GoError)
  deriving DecidableEq

/-- One store after another: the first remembered error is kept, a stop ends
the walk. -/
def Store.andThen {α β : Type} (r : Store α) (k : α → Store β) : Store β :=
  match r with
  | .ok a => k a
  | .saved a e =>
    match k a with
    | .ok b => .saved b e
    | .saved b _ => .saved b e
    | .abort e2 => .abort e2
  | .abort e => .abort e

/-- The stored value is put into its place in the enclosing destination. -/
def Store.into {α β : Type} (r : Store α) (f : α → β) : Store β :=
  match r with
  | .ok a => .ok (f a)
  | .saved a e => .saved (f a) e
  | .abort e => .abort e

/-- The value of a text of decimal digits. -/
def digitsVal (ds : List Char) : Nat :=
  ds.foldl (fun n c => 10 * n + (c.toNat - 48)) 0

/-- The function `strconv.ParseUint(s, 10, 64)`: a non-empty text of decimal
digits whose value fits 64 bits. -/
def parseUintLit (s : List Char) : Option Nat :=
  if s ≠ [] ∧ s.all Char.isDigit ∧ digitsVal s < 2 ^ 64 then some (digitsVal s) else none

/-- The function `strconv.ParseInt(s, 10, 64)`: an optional sign and a text
that `ParseUint` accepts, within the range of `int64`. -/
def parseIntLit (s : List Char) : Option Int :=
  match s with
  | '-' :: ds =>
    match parseUintLit ds with
    | some n => if n ≤ 2 ^ 63 then some (-(n : Int)) else none
    | none => none
  | '+' :: ds =>
    match parseUintLit ds with
    | some n => if n < 2 ^ 63 then some (n : Int) else none
    | none => none
  | ds =>
    match parseUintLit ds with
    | some n => if n < 2 ^ 63 then some (n : Int) else none
    | none => none

/-- Storing into a `string`: a JSON string is taken, `null` changes nothing,
anything else is an `UnmarshalTypeError`. -/
def storeString (v : Json) (cur : String) : Store String :=
  match v with
  | .null => .ok cur
  | .str s => .ok s
  | _ => .saved cur .jsonUnmarshalTypeError

/-- Storing into a `bool`. -/
def storeBool (v : Json) (cur : Bool) : Store Bool :=
  match v with
  | .null => .ok cur
  | .bool b => .ok b
  | _ => .saved cur .jsonUnmarshalTypeError

/-- Storing into an `int`: a JSON number whose text `ParseInt` accepts. -/
def storeInt (v : Json) (cur : Int) : Store Int :=
  match v with
  | .null => .ok cur
  | .num lit =>
    match parseIntLit lit.toList with
    | some n => .ok n
    | none => .saved cur .jsonUnmarshalTypeError
  | _ => .saved cur .jsonUnmarshalTypeError

/-- Storing into a `*int`: `null` makes the pointer nil; for any other value
`indirect` allocates the `int` if the pointer is nil and the value is stored
into it. -/
def storeIntPtr (v : Json) (cur : Option Int) : Store (Option Int) :=
  match v with
  | .null => .ok none
  | other => (storeInt other (cur.getD 0)).into some

/-- The elements of a JSON array stored one by one into the elements of a
slice (`decodeState.array`): element `i` is stored into the old element `i`
when the slice had one, otherwise into a zero value. (Go takes an element
above the old length from the spare capacity of the old slice, which holds
zero values unless the same key occurred in the object at least twice
before.) -/
def storeElems {α : Type} (dec : Json → α → Store α) (zero : α) :
    List Json → List α → Store (List α)
  | [], _ => .ok []
  | e :: es, old =>
    (dec e (old.headD zero)).andThen fun a =>
      (storeElems dec zero es old.tail).into (fun rest => a :: rest)

/-- Storing into a slice: `null` makes it nil, an array replaces its elements
(an empty array gives the empty, non-nil slice), anything else is an
`UnmarshalTypeError`. -/
def storeSlice {α : Type} (dec : Json → α → Store α) (zero : α) (v : Json)
    (cur : Option (List α)) : Store (Option (List α)) :=
  match v with
  | .null => .ok none
  | .arr es => (storeElems dec zero es (cur.getD [])).into some
  | _ => .saved cur .jsonUnmarshalTypeError

/-- The members of a JSON object stored one after another, in the order of
the text (`decodeState.object`). -/
def storeMembers {σ : Type} (setField : String → Json → σ → Store σ) :
    List (String × Json) → σ → Store σ
  | [], cur => .ok cur
  | (k, v) :: rest, cur => (setField k v cur).andThen (storeMembers setField rest)

/-- Storing into a struct: an object is stored member by member, `null`
changes nothing, anything else is an `UnmarshalTypeError`. -/
def storeStruct {σ : Type} (setField : String → Json → σ → Store σ) (v : Json)
    (cur : σ) : Store σ :=
  match v with
  | .null => .ok cur
  | .obj ms => storeMembers setField ms cur
  | _ => .saved cur .jsonUnmarshalTypeError

/-- The rune a rune folds to when names are compared ignoring case
(`foldName`/`bytes.EqualFold`), for names compared with ASCII names: a small
ASCII letter folds to its capital, and so do the two runes outside ASCII
that fold to an ASCII letter, the long s and the Kelvin sign. -/
def foldRune (c : Char) : Char :=
  if 'a' ≤ c ∧ c ≤ 'z' then Char.ofNat (c.toNat - 32)
  else if c = Char.ofNat 0x17F then 'S'
  else if c = Char.ofNat 0x212A then 'K'
  else c

/-- The folded form of a name. -/
def foldName (s : String) : List Char := s.toList.map foldRune

/-- The field a key of the object belongs to: the field with exactly that
name, otherwise the first field whose name is the key up to case. -/
def findField {φ : Type} (fields : List (String × φ)) (key : String) : Option φ :=
  match fields.lookup key with
  | some f => some f
  | none =>
    match fields.find? (fun f => foldName f.1 == foldName key) with
    | some f => some f.2
    | none => none

/-- One member of an object stored into a struct whose fields are listed in
`table`: the value goes to the field the key belongs to; a key that belongs
to no field is skipped. -/
def storeField {σ φ : Type} (table : List (String × φ)) (store : φ → Json → σ → Store σ)
    (key : String) (v : Json) (cur : σ) : Store σ :=
  match findField table key with
  | some f => store f v cur
  | none => .ok cur

/-- Whether `unquoteBytes` accepts the inside of a quoted text: state `0` is
plain text, `1` follows a backslash, `2` to `5` count the hexadecimal digits
of a `\u` escape. -/
def unquoteInner : Nat → List Char → Bool
  | st, [] => st == 0
  | st, c :: cs =>
    if st == 0 then
      if c == '\\' then unquoteInner 1 cs
      else if c == '"' || c.toNat < 0x20 then false
      else unquoteInner 0 cs
    else if st == 1 then
      if c == 'u' then unquoteInner 2 cs
      else if c == '"' || c == '\\' || c == '/' || c == '\x27' || c == 'b' || c == 'f'
          || c == 'n' || c == 'r' || c == 't' then unquoteInner 0 cs
      else false
    else
      match hexVal c with
      | some _ => unquoteInner (if st == 5 then 0 else st + 1) cs
      | none => false

/-- Whether `unquoteBytes` accepts a text: it is quoted and its inside is
well formed. -/
def unquoteOk (item : List Char) : Bool :=
  match item with
  | '"' :: rest =>
    match rest.getLast? with
    | some '"' => unquoteInner 0 rest.dropLast
    | _ => false
  | _ => false

/-- The call `literalStore(item, v, true)` for a `uint64` destination: the
text inside the JSON string of a field tagged `,string`. -/
def storeQuotedUint (item : List Char) (cur : Nat) : Store Nat :=
  match item with
  | [] => .saved cur .jsonStringTagError
  | c :: _ =>
    if c == 'n' then
      if item == ['n', 'u', 'l', 'l'] then .ok cur else .saved cur .jsonStringTagError
    else if c == 't' || c == 'f' then .saved cur .jsonStringTagError
    else if c == '"' then
      if unquoteOk item then .saved cur .jsonUnmarshalTypeError else .abort .jsonStringTagError
    else if c != '-' && (c < '0' || c > '9') then .abort .jsonStringTagError
    else
      match parseUintLit item with
      | some n => .ok n
      | none => .saved cur .jsonUnmarshalTypeError

/-- Storing into a `uint64` tagged `,string`: the number is expected inside a
JSON string; `null` changes nothing; an unquoted value is refused. -/
def storeUintString (v : Json) (cur : Nat) : Store Nat :=
  match v with
  | .null => .ok cur
  | .str s => storeQuotedUint s.toList cur
  | _ => .saved cur .jsonStringTagError

/-- The fields of `Operator`. -/
inductive OperatorField where
  | name | website
  deriving DecidableEq

/-- The JSON names of the fields of `Operator`, in the order of the struct. -/
def OperatorField.table : List (String × OperatorField) :=
  [("name", .name), ("website", .website)]

/-- A JSON value stored into one field of an `Operator`. -/
def Operator.store : OperatorField → Json → Operator → Store Operator
  | .name, v, cur => (storeString v cur.Name).into (fun x => { cur with Name := x })
  | .website, v, cur => (storeString v cur.Website).into (fun x => { cur with Website := x })

/-- One member of an object stored into an `Operator`. -/
def Operator.setField : String → Json → Operator → Store Operator :=
  storeField OperatorField.table Operator.store

/-- The fields of `Issuer`. -/
inductive IssuerField where
  | name | pubkeySha256 | friendlyName | website | caaDomains | operator
  deriving DecidableEq

/-- The JSON names of the fields of `Issuer`, in the order of the struct. -/
def IssuerField.table : List (String × IssuerField) :=
  [("name", .name), ("pubkey_sha256", .pubkeySha256), ("friendly_name", .friendlyName),
   ("website", .website), ("caa_domains", .caaDomains), ("operator", .operator)]

/-- A JSON value stored into one field of an `Issuer`. -/
def Issuer.store : IssuerField → Json → Issuer → Store Issuer
  | .name, v, cur => (storeString v cur.Name).into (fun x => { cur with Name := x })
  | .pubkeySha256, v, cur =>
    (storeString v cur.PubKeySHA256).into (fun x => { cur with PubKeySHA256 := x })
  | .friendlyName, v, cur =>
    (storeString v cur.FriendlyName).into (fun x => { cur with FriendlyName := x })
  | .website, v, cur => (storeString v cur.Website).into (fun x => { cur with Website := x })
  | .caaDomains, v, cur =>
    (storeSlice storeString "" v cur.CAADomains).into (fun x => { cur with CAADomains := x })
  | .operator, v, cur =>
    (storeStruct Operator.setField v cur.Operator).into (fun x => { cur with Operator := x })

/-- One member of an object stored into an `Issuer`. -/
def Issuer.setField : String → Json → Issuer → Store Issuer :=
  storeField IssuerField.table Issuer.store

/-- The fields of `Certificate`. -/
inductive CertificateField where
  | type | sha256 | data
  deriving DecidableEq

/-- The JSON names of the fields of `Certificate`. -/
def CertificateField.table : List (String × CertificateField) :=
  [("type", .type), ("sha256", .sha256), ("data", .data)]

/-- A JSON value stored into one field of a `Certificate`. -/
def Certificate.store : CertificateField → Json → Certificate → Store Certificate
  | .type, v, cur => (storeString v cur.Type_).into (fun x => { cur with Type_ := x })
  | .sha256, v, cur => (storeString v cur.SHA256).into (fun x => { cur with SHA256 := x })
  | .data, v, cur => (storeString v cur.Data).into (fun x => { cur with Data := x })

/-- One member of an object stored into a `Certificate`. -/
def Certificate.setField : String → Json → Certificate → Store Certificate :=
  storeField CertificateField.table Certificate.store

/-- The fields of `Revocation`. -/
inductive RevocationField where
  | time | reason | checkedAt
  deriving DecidableEq

/-- The JSON names of the fields of `Revocation`. -/
def RevocationField.table : List (String × RevocationField) :=
  [("time", .time), ("reason", .reason), ("checked_at", .checkedAt)]

/-- A JSON value stored into one field of a `Revocation`. -/
def Revocation.store : RevocationField → Json → Revocation → Store Revocation
  | .time, v, cur => (storeString v cur.Time).into (fun x => { cur with Time := x })
  | .reason, v, cur => (storeIntPtr v cur.Reason).into (fun x => { cur with Reason := x })
  | .checkedAt, v, cur => (storeString v cur.CheckedAt).into (fun x => { cur with CheckedAt := x })

/-- One member of an object stored into a `Revocation`. -/
def Revocation.setField : String → Json → Revocation → Store Revocation :=
  storeField RevocationField.table Revocation.store

/-- The fields of `PubKey`. -/
inductive PubKeyField where
  | type | bitLength | curve
  deriving DecidableEq

/-- The JSON names of the fields of `PubKey` (`omitempty` plays no part in
decoding). -/
def PubKeyField.table : List (String × PubKeyField) :=
  [("type", .type), ("bit_length", .bitLength), ("curve", .curve)]

/-- A JSON value stored into one field of a `PubKey`. -/
def PubKey.store : PubKeyField → Json → PubKey → Store PubKey
  | .type, v, cur => (storeString v cur.Type_).into (fun x => { cur with Type_ := x })
  | .bitLength, v, cur => (storeInt v cur.BitLength).into (fun x => { cur with BitLength := x })
  | .curve, v, cur => (storeString v cur.Curve).into (fun x => { cur with Curve := x })

/-- One member of an object stored into a `PubKey`. -/
def PubKey.setField : String → Json → PubKey → Store PubKey :=
  storeField PubKeyField.table PubKey.store

/-- The fields of `Issuance`. -/
inductive IssuanceField where
  | id | tbsSha256 | dnsNames | pubkeySha256 | issuer | notBefore | notAfter | cert
  | certDer | certSha256 | problemReporting | revoked | revocation | pubkey
  deriving DecidableEq

/-- The JSON names of the fields of `Issuance`, in the order of the struct. -/
def IssuanceField.table : List (String × IssuanceField) :=
  [("id", .id), ("tbs_sha256", .tbsSha256), ("dns_names", .dnsNames),
   ("pubkey_sha256", .pubkeySha256), ("issuer", .issuer), ("not_before", .notBefore),
   ("not_after", .notAfter), ("cert", .cert), ("cert_der", .certDer),
   ("cert_sha256", .certSha256), ("problem_reporting", .problemReporting),
   ("revoked", .revoked), ("revocation", .revocation), ("pubkey", .pubkey)]

/-- A JSON value stored into one field of an `Issuance`. -/
def Issuance.store : IssuanceField → Json → Issuance → Store Issuance
  | .id, v, cur => (storeUintString v cur.ID).into (fun x => { cur with ID := x })
  | .tbsSha256, v, cur => (storeString v cur.TBSSHA256).into (fun x => { cur with TBSSHA256 := x })
  | .dnsNames, v, cur =>
    (storeSlice storeString "" v cur.Domains).into (fun x => { cur with Domains := x })
  | .pubkeySha256, v, cur =>
    (storeString v cur.PubKeySHA256).into (fun x => { cur with PubKeySHA256 := x })
  | .issuer, v, cur =>
    (storeStruct Issuer.setField v cur.Issuer).into (fun x => { cur with Issuer := x })
  | .notBefore, v, cur => (storeString v cur.NotBefore).into (fun x => { cur with NotBefore := x })
  | .notAfter, v, cur => (storeString v cur.NotAfter).into (fun x => { cur with NotAfter := x })
  | .cert, v, cur =>
    (storeStruct Certificate.setField v cur.Cert).into (fun x => { cur with Cert := x })
  | .certDer, v, cur => (storeString v cur.CertDER).into (fun x => { cur with CertDER := x })
  | .certSha256, v, cur =>
    (storeString v cur.CertSHA256).into (fun x => { cur with CertSHA256 := x })
  | .problemReporting, v, cur =>
    (storeString v cur.ProblemReporting).into (fun x => { cur with ProblemReporting := x })
  | .revoked, v, cur => (storeBool v cur.Revoked).into (fun x => { cur with Revoked := x })
  | .revocation, v, cur =>
    (storeStruct Revocation.setField v cur.Revocation).into
      (fun x => { cur with Revocation := x })
  | .pubkey, v, cur =>
    (storeStruct PubKey.setField v cur.PubKey).into (fun x => { cur with PubKey := x })

/-- One member of an object stored into an `Issuance`. -/
def Issuance.setField : String → Json → Issuance → Store Issuance :=
  storeField IssuanceField.table Issuance.store

/-- The function `json.Unmarshal(data, &issuances)` for a variable of type
`[]Issuance` holding `cur`: a text that is not JSON is a `SyntaxError` and
leaves the variable alone; otherwise the value is stored into the slice. -/
def Unmarshal (data : String) (cur : Option (List Issuance)) :
    Store (Option (List Issuance)) :=
  match parseJson data.toList with
  | none => .saved cur .jsonSyntaxError
  | some v => storeSlice (storeStruct Issuance.setField) Issuance.zero v cur

/-! ## The HTTP values the package touches -/

/-- An `http.Header`: canonical key to list of values. -/
structure Header where
  entries : List (String × List String)
  deriving DecidableEq

/-- The method `Header.Get` for a key that is already canonical
(`Retry-After` is): the first value stored under the key, or `""`. -/
def Header.Get (h : Header) (key : String) : String :=
  match h.entries.lookup key with
  | some (v :: _) => v
  | _ => ""

/-- The method `Header.Set` for a key that is already canonical
(`Authorization` is): the key now holds exactly the one value. -/
def Header.Set (h : Header) (key value : String) : Header :=
  ⟨(key, [value]) :: h.entries.filter (fun kv => kv.1 != key)⟩

/-- An `*http.Request` as far as the package fills it in: the method, the URL
text given to `http.NewRequest`, and the header. -/
structure Request where
  Method : String
  URL : String
  Header : Header
  deriving DecidableEq

/-- What `io.ReadAll` gives for a response body: the bytes read and the error
that stopped the reading, if any. -/
structure Body where
  data : String
  err : Option GoError
  deriving DecidableEq

/-- An `*http.Response` as far as the package reads it: the status code, the
header and the body (never nil in a response, by the contract of
`http.Response`). -/
structure Response where
  StatusCode : Int
  Header : Header
  Body : Body
  deriving DecidableEq

/-- The interface `HTTPClient`: what `Do` returns for a request, a response or
an error (the contract of `http.Client.Do`: exactly one of the two). -/
abbrev HTTPClient := Request → Except GoError Response

/-- What the package uses from outside and this development leaves open:
`IsIP` is `govalidator.IsIP` (`net.ParseIP(str) != nil`), `urlParses` says
whether `url.Parse` accepts a URL text, `DefaultClient` is
`http.DefaultClient`. -/
structure Env where
  IsIP : String → Bool
  urlParses : String → Bool
  DefaultClient : HTTPClient

/-- The function `http.NewRequest(method, url, nil)` for a valid method: the
request with that method, URL and an empty header, or the URL error. -/
def NewRequest (env : Env) (method url : String) : Except GoError Request :=
  if env.urlParses url then .ok ⟨method, url, ⟨[]⟩⟩ else .error (.urlError url)

/-! ## `govalidator.IsDNSName`

The package `github.com/asaskevich/govalidator` is outside the repository.
`IsDNSName(str)` is
`str != "" && len(strings.Replace(str, ".", "", -1)) <= 255 && !IsIP(str) && rxDNSName.MatchString(str)`
with the pattern
`^([a-zA-Z0-9_]{1}[a-zA-Z0-9_-]{0,62}){1}(\.[a-zA-Z0-9_]{1}[a-zA-Z0-9_-]{0,62})*[\._]?$`.
The pattern is embedded as a matcher for the language it denotes
(`rxDNSName_iff_matches` relates the matcher to the pattern); `IsIP` stays a
parameter. -/

/-- The class `[a-zA-Z0-9_]`. -/
def isLabelStart (c : Char) : Bool := c.isAlphanum || c == '_'

/-- The class `[a-zA-Z0-9_-]`. -/
def isLabelRest (c : Char) : Bool := isLabelStart c || c == '-'

/-- The language of `[a-zA-Z0-9_]{1}[a-zA-Z0-9_-]{0,62}`. -/
def isLabel : List Char → Bool
  | [] => false
  | c :: cs => isLabelStart c && cs.all isLabelRest && decide (cs.length ≤ 62)

/-- The language of a label followed by `(\.label)*`: the pieces between the
dots are labels. -/
def isLabels (cs : List Char) : Bool := (cs.splitOn '.').all isLabel

/-- The language of the whole pattern `rxDNSName`: labels joined by dots, and
then possibly one more `.` or `_`. -/
def rxDNSName (cs : List Char) : Bool :=
  isLabels cs ||
    match cs.getLast? with
    | some c => (c == '.' || c == '_') && isLabels cs.dropLast
    | none => false

/-- The function `govalidator.IsDNSName`. -/
def IsDNSName (IsIP : String → Bool) (str : String) : Bool :=
  if str == "" || (String.mk (str.toList.filter (fun c => c != '.'))).utf8ByteSize > 255 then
    false
  else
    !IsIP str && rxDNSName str.toList

/-! ## The pattern of `rxDNSName` as a regular expression -/

/-- The regular expressions the pattern of `rxDNSName` is made of: a character
class, one expression after another, `e*`, `e?` and `e{0,n}`. -/
inductive Rx where
  | cls (p : Char → Bool)
  | seq (a b : Rx)
  | star (a : Rx)
  | opt (a : Rx)
  | upTo (a : Rx) (n : Nat)

/-- The texts a regular expression matches as a whole. -/
inductive Rx.Matches : Rx → List Char → Prop where
  | cls {p : Char → Bool} {c : Char} : p c = true → Rx.Matches (.cls p) [c]
  | seq {a b : Rx} {xs ys : List Char} :
    Rx.Matches a xs → Rx.Matches b ys → Rx.Matches (.seq a b) (xs ++ ys)
  | starNil {a : Rx} : Rx.Matches (.star a) []
  | starCons {a : Rx} {xs ys : List Char} :
    Rx.Matches a xs → Rx.Matches (.star a) ys → Rx.Matches (.star a) (xs ++ ys)
  | optNone {a : Rx} : Rx.Matches (.opt a) []
  | optSome {a : Rx} {xs : List Char} : Rx.Matches a xs → Rx.Matches (.opt a) xs
  | upToNil {a : Rx} {n : Nat} : Rx.Matches (.upTo a n) []
  | upToCons {a : Rx} {n : Nat} {xs ys : List Char} :
    Rx.Matches a xs → Rx.Matches (.upTo a n) ys → Rx.Matches (.upTo a (n + 1)) (xs ++ ys)

/-- The expression `[a-zA-Z0-9_]{1}[a-zA-Z0-9_-]{0,62}`. -/
def labelRx : Rx := .seq (.cls isLabelStart) (.upTo (.cls isLabelRest) 62)

/-- The pattern
`^([a-zA-Z0-9_]{1}[a-zA-Z0-9_-]{0,62}){1}(\.[a-zA-Z0-9_]{1}[a-zA-Z0-9_-]{0,62})*[\._]?$`
between its anchors. -/
def dnsNameRx : Rx :=
  .seq (.seq labelRx (.star (.seq (.cls (fun c => c == '.')) labelRx)))
    (.opt (.cls (fun c => c == '.' || c == '_')))

/-! ## The client and its query string -/

/-- The constant `defaultParams`. -/
def defaultParams : String := "?expand=dns_names&expand=issuer&expand=cert&expand=pubkey"

/-- The struct `CertspotterClient`; a nil `Client` is `none`. -/
structure CertspotterClient where
  Endpoint : String
  Token : String
  Client : Option HTTPClient

/-- The verb `%d` of `fmt` for a `uint64`: the decimal digits. -/
def fmtUint (n : Nat) : String := Nat.repr n

/-- The verb `%d` of `fmt` for an `int`: the decimal digits, after a minus
sign for a negative number. -/
def fmtInt (n : Int) : String := toString n

/-- The method `getQueryParams`. The two `fmt.Sprintf` calls place their
arguments verbatim (`%s`) or in decimal (`%d`) between the literal parts of
the format. -/
def CertspotterClient.getQueryParams (_c : CertspotterClient) (domain : String)
    (matchWildcards includeSubdomains : Bool) (position : Nat) : String :=
  let q := defaultParams ++ "&domain=" ++ domain
  let q := if position > 0 then q ++ "&after=" ++ fmtUint position else q
  let q := if matchWildcards then q ++ "&match_wildcards=true" else q
  let q := if includeSubdomains then q ++ "&include_subdomains=true" else q
  q


/-! ## The requests -/

/-- What a call of `get` leaves behind: the client (whose nil `Client` has
been replaced), the requests handed to `Do`, and the returned pair. -/
structure GetResult where
  client : CertspotterClient
  calls : List Request
  body : Option String
  err : Option GoError

/-- The transport a call goes through: the client's own, or
`http.DefaultClient` when the field is nil. -/
def CertspotterClient.doer (env : Env) (c : CertspotterClient) : HTTPClient :=
  match c.Client with
  | some t => t
  | none => env.DefaultClient

/-- The method `get`. -/
def CertspotterClient.get (env : Env) (c : CertspotterClient) (queryParams : String) :
    GetResult :=
  let doer := c.doer env
  let c := { c with Client := some doer }
  match NewRequest env "GET" (c.Endpoint ++ queryParams) with
  | .error e => ⟨c, [], none, some e⟩
  | .ok req =>
    let req :=
      if c.Token ≠ "" then
        { req with Header := req.Header.Set "Authorization" ("Bearer " ++ c.Token) }
      else req
    match doer req with
    | .error e => ⟨c, [req], none, some e⟩
    | .ok res =>
      if res.StatusCode = 429 then
        let retryAfter := res.Header.Get "Retry-After"
        ⟨c, [req], none,
          some (.errorf ("hit Cert Spotter\x27s API limit. Retry-After: " ++ retryAfter))⟩
      else if res.StatusCode ≠ 200 then
        ⟨c, [req], none,
          some (.errorf ("undocumented status code returned by the Cert Spotter API: "
            ++ fmtInt res.StatusCode))⟩
      else ⟨c, [req], some res.Body.data, res.Body.err⟩

/-- What a call of `GetIssuances` leaves behind: the client, the requests
handed to `Do`, and the returned pair. -/
structure IssuancesResult where
  client : CertspotterClient
  calls : List Request
  issuances : Option (List Issuance)
  err : Option GoError

/-- The method `GetIssuances`. -/
def CertspotterClient.GetIssuances (env : Env) (c : CertspotterClient) (domain : String)
    (matchWildcards includeSubdomains : Bool) (position : Nat) : IssuancesResult :=
  if !IsDNSName env.IsIP domain then ⟨c, [], none, some ErrorInvalidDomain⟩
  else
    let queryParams := c.getQueryParams domain matchWildcards includeSubdomains position
    let r := c.get env queryParams
    match r.err with
    | some e => ⟨r.client, r.calls, none, some e⟩
    | none =>
      match Unmarshal (r.body.getD "") none with
      | .ok issuances => ⟨r.client, r.calls, issuances, none⟩
      | .saved _ e => ⟨r.client, r.calls, none, some e⟩
      | .abort e => ⟨r.client, r.calls, none, some e⟩

/-! ## The test double and a concrete environment -/

/-- The test double `MockClient` of `certspotter_test.go`: whatever the
request, `Do` answers `200 OK` with the body `Content` and no header. -/
def MockClient (Content : String) : HTTPClient :=
  fun _ => .ok ⟨200, ⟨[]⟩, ⟨Content, none⟩⟩

/-- A transport that answers every request with the given status code,
header and body. -/
def cannedClient (status : Int) (header : Header) (body : String) : HTTPClient :=
  fun _ => .ok ⟨status, header, ⟨body, none⟩⟩

/-- A concrete environment for runs on concrete inputs: a text of digits and
dots counts as an IP address, every URL parses, and the default transport
fails. -/
def sampleEnv : Env where
  IsIP := fun s => s.toList.all (fun c => c.isDigit || c == '.')
  urlParses := fun _ => true
  DefaultClient := fun _ => .error (.external "*net.OpError" "dial tcp: connection refused")

/-! ## Reading a query string -/

/-- The parameters of a query string, as a server splits it: the text after
the leading `?`, cut at every `&`. -/
def queryParams (q : String) : List (List Char) := (q.toList.drop 1).splitOn '&'

/-- Whether a query string holds a parameter with the given name (a piece
that opens with the name and `=`). -/
def hasParam (name : String) (q : String) : Bool :=
  (queryParams q).any (fun p => p.take (name.length + 1) == name.toList ++ ['='])

/-- Whether a query string holds the parameter `name=value`. -/
def hasParamValue (name value : String) (q : String) : Bool :=
  (queryParams q).contains (name.toList ++ '=' :: value.toList)

/-! ## Telling errors apart -/

/-- What a caller can tell about an error value without reading its message
text: its dynamic type (a type switch, `errors.As`) and whether it is the
package's sentinel value (`errors.Is`). -/
def GoError.kind (e : GoError) : String × Bool := (e.dynType, e.isInvalidDomain)

/-! ## What a well-formed issuance object is

The wire side of the decoding claim, written from the words of the
specification: which JSON object describes which `Issuance`, field by field.
A field is described by the member with exactly its snake_case name: a string
field by a JSON string, `id` by a JSON string of decimal digits, a list by an
array of strings in the same order, a nested struct by an object that
describes it; a member that is absent or `null` describes the zero value (the
empty string, the nil slice, the nil pointer). Other keys are allowed as long
as they are no name of the struct, also when case is ignored, and no key
occurs twice. -/

/-- A text occurs in another: the other one is some text, then this one, then
some text. -/
def occursIn (pat xs : List Char) : Prop := ∃ a b, xs = a ++ pat ++ b

/-- The parameters `getQueryParams` writes, as names and values. -/
def paramPairs (D : String) (W S : Bool) (P : Nat) : List (List Char × List Char) :=
  [("expand".toList, "dns_names".toList), ("expand".toList, "issuer".toList),
    ("expand".toList, "cert".toList), ("expand".toList, "pubkey".toList),
    ("domain".toList, D.toList)]
    ++ (if 0 < P then [("after".toList, (fmtUint P).toList)] else [])
    ++ (if W = true then [("match_wildcards".toList, "true".toList)] else [])
    ++ (if S = true then [("include_subdomains".toList, "true".toList)] else [])

/-! ## What an error carries in its message

The package has no error types of its own: what the rate-limit error and the
unexpected-status error carry is in the text of their message. -/

/-- The `Retry-After` value a rate-limit error carries: what its message holds
after the fixed opening `hit Cert Spotter's API limit. Retry-After: `. An error
that is not a `fmt.Errorf` value with that opening carries none. -/
def GoError.retryAfterOf : GoError → Option String
  | .errorf msg =>
    if msg.toList.take 43 = "hit Cert Spotter\x27s API limit. Retry-After: ".toList then
      some (String.mk (msg.toList.drop 43))
    else none
  | _ => none

/-- The integer a decimal text spells: digits, after a minus sign for a
negative number. -/
def readInt (l : List Char) : Option Int :=
  match l with
  | '-' :: ds =>
    if !ds.isEmpty && ds.all Char.isDigit then some (-(digitsVal ds : Int)) else none
  | ds => if !ds.isEmpty && ds.all Char.isDigit then some (digitsVal ds : Int) else none

/-- The status code an unexpected-status error carries: the integer its
message spells after the fixed opening
`undocumented status code returned by the Cert Spotter API: `. An error that
is not a `fmt.Errorf` value with that opening and a decimal text carries
none. -/
def GoError.statusCodeOf : GoError → Option Int
  | .errorf msg =>
    if msg.toList.take 59
        = "undocumented status code returned by the Cert Spotter API: ".toList then
      readInt (msg.toList.drop 59)
    else none
  | _ => none

/-! ## What a valid JSON array of issuances is

The wire side of the claim about bodies that are refused: which JSON values
fit the types of the package. A JSON `null` fits every type, as
`encoding/json` has it. -/

/-- A JSON value fits a `string` field: a string, or `null`. -/
def fitsString (v : Json) : Bool :=
  match v with
  | .str _ => true
  | .null => true
  | _ => false

/-- A JSON value fits a `bool` field: `true` or `false`, or `null`. -/
def fitsBool (v : Json) : Bool :=
  match v with
  | .bool _ => true
  | .null => true
  | _ => false

/-- A text spells an integer of 64 bits: digits after an optional sign,
within the range of `int64`. -/
def int64Text (l : List Char) : Bool :=
  match l with
  | '-' :: ds => !ds.isEmpty && ds.all Char.isDigit && decide (digitsVal ds ≤ 2 ^ 63)
  | '+' :: ds => !ds.isEmpty && ds.all Char.isDigit && decide (digitsVal ds < 2 ^ 63)
  | ds => !ds.isEmpty && ds.all Char.isDigit && decide (digitsVal ds < 2 ^ 63)

/-- A JSON value fits an `int` or `*int` field: a number whose text spells an
integer of 64 bits, or `null`. -/
def fitsInt (v : Json) : Bool :=
  match v with
  | .num lit => int64Text lit.toList
  | .null => true
  | _ => false

/-- A JSON value fits a `[]string` field: an array of values that fit a
`string`, or `null`. -/
def fitsStrings (v : Json) : Bool :=
  match v with
  | .arr es => es.all fitsString
  | .null => true
  | _ => false

/-- A JSON value fits the field `id` (a `uint64` tagged `,string`): a string
holding digits with a value below `2 ^ 64`, or holding the text `null`; or
`null`. -/
def fitsUintString (v : Json) : Bool :=
  match v with
  | .str s =>
    s.toList == ['n', 'u', 'l', 'l']
      || (!s.toList.isEmpty && s.toList.all Char.isDigit && decide (digitsVal s.toList < 2 ^ 64))
  | .null => true
  | _ => false

/-- A JSON value fits a struct whose fields are listed in `table`: an object
in which every member whose key belongs to a field has a value that fits the
field (a key that belongs to no field may hold anything); or `null`. -/
def fitsStruct {φ : Type} (table : List (String × φ)) (fits : φ → Json → Bool)
    (v : Json) : Bool :=
  match v with
  | .obj ms =>
    ms.all (fun m =>
      match findField table m.1 with
      | some f => fits f m.2
      | none => true)
  | .null => true
  | _ => false

/-- What fits each field of an `Operator`. -/
def Operator.fits : OperatorField → Json → Bool
  | .name, v => fitsString v
  | .website, v => fitsString v

/-- What fits each field of an `Issuer`. -/
def Issuer.fits : IssuerField → Json → Bool
  | .name, v => fitsString v
  | .pubkeySha256, v => fitsString v
  | .friendlyName, v => fitsString v
  | .website, v => fitsString v
  | .caaDomains, v => fitsStrings v
  | .operator, v => fitsStruct OperatorField.table Operator.fits v

/-- What fits each field of a `Certificate`. -/
def Certificate.fits : CertificateField → Json → Bool
  | .type, v => fitsString v
  | .sha256, v => fitsString v
  | .data, v => fitsString v

/-- What fits each field of a `Revocation`. -/
def Revocation.fits : RevocationField → Json → Bool
  | .time, v => fitsString v
  | .reason, v => fitsInt v
  | .checkedAt, v => fitsString v

/-- What fits each field of a `PubKey`. -/
def PubKey.fits : PubKeyField → Json → Bool
  | .type, v => fitsString v
  | .bitLength, v => fitsInt v
  | .curve, v => fitsString v

/-- What fits each field of an `Issuance`. -/
def Issuance.fits : IssuanceField → Json → Bool
  | .id, v => fitsUintString v
  | .tbsSha256, v => fitsString v
  | .dnsNames, v => fitsStrings v
  | .pubkeySha256, v => fitsString v
  | .issuer, v => fitsStruct IssuerField.table Issuer.fits v
  | .notBefore, v => fitsString v
  | .notAfter, v => fitsString v
  | .cert, v => fitsStruct CertificateField.table Certificate.fits v
  | .certDer, v => fitsString v
  | .certSha256, v => fitsString v
  | .problemReporting, v => fitsString v
  | .revoked, v => fitsBool v
  | .revocation, v => fitsStruct RevocationField.table Revocation.fits v
  | .pubkey, v => fitsStruct PubKeyField.table PubKey.fits v

/-- The error a store ends with, remembered or stopping the walk. -/
def Store.err {α : Type} (r : Store α) : Option GoError :=
  match r with
  | .ok _ => none
  | .saved _ e => some e
  | .abort e => some e

/-- C1. For every domain `D`, flags `W` and `S` and position `P`,
`getQueryParams` is exactly the base parameters, then `&domain=` and `D`
verbatim, then `&after=` and `P` in decimal iff `P > 0`, then
`&match_wildcards=true` iff `W`, then `&include_subdomains=true` iff `S`; the
client plays no part in the result; and the input
`("example.com", true, true, 1234567)` gives the string of the test. -/
theorem getQueryParams_contract :
    (∀ (c : CertspotterClient) (D : String) (W S : Bool) (P : Nat),
      c.getQueryParams D W S P =
        "?expand=dns_names&expand=issuer&expand=cert&expand=pubkey" ++ ("&domain=" ++ D)
          ++ (if 0 < P then "&after=" ++ Nat.repr P else "")
          ++ (if W = true then "&match_wildcards=true" else "")
          ++ (if S = true then "&include_subdomains=true" else ""))
    ∧ (∀ (c c2 : CertspotterClient) (D : String) (W S : Bool) (P : Nat),
      c.getQueryParams D W S P = c2.getQueryParams D W S P)
    ∧ (∀ c : CertspotterClient, c.getQueryParams "example.com" true true 1234567 =
        "?expand=dns_names&expand=issuer&expand=cert&expand=pubkey&domain=example.com&after=1234567&match_wildcards=true&include_subdomains=true") := by
  refine ⟨?_, ?_, ?_⟩
  · intro c D W S P
    simp only [CertspotterClient.getQueryParams, defaultParams, fmtUint, gt_iff_lt]
    by_cases hP : 0 < P <;> cases W <;> cases S <;>
      simp only [hP, if_true, if_false, String.append_assoc, String.append_empty,
        Bool.false_eq_true]
  · intro c c2 D W S P
    rfl
  · intro c
    simp only [CertspotterClient.getQueryParams, defaultParams, fmtUint]
    decide

/-! ## The characters of an accepted domain -/

/-- An element of an intercalated list comes from the separator or from one
of the pieces. -/
theorem mem_intercalate_cases {α : Type} (sep : List α) (x : α) :
    ∀ ls : List (List α), x ∈ sep.intercalate ls → x ∈ sep ∨ ∃ l ∈ ls, x ∈ l
  | [] => by simp [List.intercalate]
  | [l] => by
    intro h
    right
    exact ⟨l, by simp, by simpa [List.intercalate] using h⟩
  | l :: l2 :: rest => by
    intro h
    have ih := mem_intercalate_cases sep x (l2 :: rest)
    simp only [List.intercalate, List.intersperse_cons₂, List.flatten_cons, List.mem_append] at h ih
    rcases h with h | h | h
    · exact Or.inr ⟨l, by simp, h⟩
    · exact Or.inl h
    · rcases ih h with h2 | ⟨m, hm, hx⟩
      · exact Or.inl h2
      · exact Or.inr ⟨m, List.mem_cons_of_mem _ hm, hx⟩

/-- Every character of a label is in the class `[a-zA-Z0-9_-]`. -/
theorem isLabel_chars {l : List Char} (h : isLabel l = true) :
    ∀ c ∈ l, isLabelRest c = true := by
  cases l with
  | nil => simp [isLabel] at h
  | cons a rest =>
    simp only [isLabel, Bool.and_eq_true, List.all_eq_true, decide_eq_true_eq] at h
    intro c hc
    rcases List.mem_cons.mp hc with rfl | hc
    · simp [isLabelRest, h.1.1]
    · exact h.1.2 c hc

/-- Every character of labels joined by dots is a dot or in the class
`[a-zA-Z0-9_-]`. -/
theorem isLabels_chars {cs : List Char} (h : isLabels cs = true) :
    ∀ c ∈ cs, isLabelRest c = true ∨ c = '.' := by
  intro c hc
  have hsplit : ['.'].intercalate (cs.splitOn '.') = cs := List.intercalate_splitOn cs '.'
  rw [← hsplit] at hc
  rcases mem_intercalate_cases ['.'] c _ hc with h1 | ⟨l, hl, hcl⟩
  · exact Or.inr (by simpa using h1)
  · have hall := List.all_eq_true.mp h l hl
    exact Or.inl (isLabel_chars hall c hcl)

/-- Every character of a text in the language of `rxDNSName` is a dot or in
the class `[a-zA-Z0-9_-]`. -/
theorem rxDNSName_chars {cs : List Char} (h : rxDNSName cs = true) :
    ∀ c ∈ cs, isLabelRest c = true ∨ c = '.' := by
  simp only [rxDNSName, Bool.or_eq_true] at h
  rcases h with h | h
  · exact isLabels_chars h
  · intro c hc
    cases hlast : cs.getLast? with
    | none => simp [hlast] at h
    | some d =>
      simp only [hlast, Bool.and_eq_true, Bool.or_eq_true, beq_iff_eq] at h
      have hne : cs ≠ [] := by
        intro hnil
        simp [hnil] at hlast
      have hd : cs.getLast hne = d := by
        have := List.getLast?_eq_getLast cs hne
        rw [this] at hlast
        exact Option.some.inj hlast
      have hcs : cs = cs.dropLast ++ [d] := by
        rw [← hd]
        exact (List.dropLast_append_getLast hne).symm
      rw [hcs] at hc
      rcases List.mem_append.mp hc with hc | hc
      · exact isLabels_chars h.2 c hc
      · have hcd : c = d := by simpa using hc
        rcases h.1 with hdot | hund
        · exact Or.inr (hcd.trans hdot)
        · left
          rw [hcd, hund]
          decide

/-- Every character of a domain that `IsDNSName` accepts is a dot or in the
class `[a-zA-Z0-9_-]`, whatever `IsIP` says. -/
theorem IsDNSName_chars {IsIP : String → Bool} {str : String}
    (h : IsDNSName IsIP str = true) : ∀ c ∈ str.toList, isLabelRest c = true ∨ c = '.' := by
  unfold IsDNSName at h
  split at h
  · exact absurd h (by simp)
  · simp only [Bool.and_eq_true] at h
    exact rxDNSName_chars h.2

/-- A domain that holds the character `*` is refused by `IsDNSName`. -/
theorem IsDNSName_star {IsIP : String → Bool} {str : String} (h : '*' ∈ str.toList) :
    IsDNSName IsIP str = false := by
  cases hv : IsDNSName IsIP str with
  | false => rfl
  | true =>
    rcases IsDNSName_chars hv '*' h with h1 | h1
    · exact absurd h1 (by decide)
    · exact absurd h1 (by decide)

/-! ## The language of the pattern -/

/-- A text matches one expression after another iff it is a text of the
first followed by a text of the second. -/
theorem matches_seq (a b : Rx) (zs : List Char) :
    Rx.Matches (.seq a b) zs ↔ ∃ xs ys, zs = xs ++ ys ∧ Rx.Matches a xs ∧ Rx.Matches b ys := by
  constructor
  · intro h
    cases h with
    | seq h1 h2 => exact ⟨_, _, rfl, h1, h2⟩
  · rintro ⟨xs, ys, rfl, h1, h2⟩
    exact .seq h1 h2

/-- A text matches a class iff it is one character of the class. -/
theorem matches_cls (p : Char → Bool) (zs : List Char) :
    Rx.Matches (.cls p) zs ↔ ∃ c, zs = [c] ∧ p c = true := by
  constructor
  · intro h
    cases h with
    | cls hp => exact ⟨_, rfl, hp⟩
  · rintro ⟨c, rfl, hp⟩
    exact .cls hp

/-- A text matches `e?` iff it is empty or matches `e`. -/
theorem matches_opt (a : Rx) (zs : List Char) :
    Rx.Matches (.opt a) zs ↔ zs = [] ∨ Rx.Matches a zs := by
  constructor
  · intro h
    cases h with
    | optNone => exact Or.inl rfl
    | optSome h1 => exact Or.inr h1
  · rintro (rfl | h)
    · exact .optNone
    · exact .optSome h

/-- A text matches `[class]{0,n}` iff it has at most `n` characters, all of
the class. -/
theorem matches_upTo_cls (p : Char → Bool) : ∀ (n : Nat) (zs : List Char),
    Rx.Matches (.upTo (.cls p) n) zs ↔ zs.all p = true ∧ zs.length ≤ n := by
  intro n
  induction n with
  | zero =>
    intro zs
    constructor
    · intro h
      cases h with
      | upToNil => simp
    · rintro ⟨_, hlen⟩
      have : zs = [] := List.length_eq_zero.mp (Nat.le_zero.mp hlen)
      subst this
      exact .upToNil
  | succ n ih =>
    intro zs
    constructor
    · intro h
      cases h with
      | upToNil => simp
      | upToCons h1 h2 =>
        obtain ⟨c, rfl, hp⟩ := (matches_cls p _).mp h1
        obtain ⟨hall, hlen⟩ := (ih _).mp h2
        simp only [List.singleton_append, List.all_cons, hp, hall, Bool.and_self,
          List.length_cons, true_and]
        omega
    · rintro ⟨hall, hlen⟩
      cases zs with
      | nil => exact .upToNil
      | cons c cs =>
        simp only [List.all_cons, Bool.and_eq_true, List.length_cons] at hall hlen
        have h2 := (ih cs).mpr ⟨hall.2, by omega⟩
        exact @Rx.Matches.upToCons _ _ [c] cs (.cls hall.1) h2

/-- The texts of `[a-zA-Z0-9_]{1}[a-zA-Z0-9_-]{0,62}` are the labels. -/
theorem matches_labelRx (zs : List Char) : Rx.Matches labelRx zs ↔ isLabel zs = true := by
  unfold labelRx
  rw [matches_seq]
  constructor
  · rintro ⟨xs, ys, rfl, h1, h2⟩
    obtain ⟨c, rfl, hc⟩ := (matches_cls _ _).mp h1
    obtain ⟨hall, hlen⟩ := (matches_upTo_cls _ _ _).mp h2
    simp [isLabel, hc, hall, hlen]
  · intro h
    cases zs with
    | nil => simp [isLabel] at h
    | cons c cs =>
      simp only [isLabel, Bool.and_eq_true, decide_eq_true_eq] at h
      exact ⟨[c], cs, rfl, .cls h.1.1, (matches_upTo_cls _ _ _).mpr ⟨h.1.2, h.2⟩⟩

/-- The texts of `(\.label)*` are the texts made of a dot and a label, again
and again. -/
theorem matches_dotLabels (zs : List Char) :
    Rx.Matches (.star (.seq (.cls (fun c => c == '.')) labelRx)) zs
      ↔ ∃ ls : List (List Char), (∀ l ∈ ls, isLabel l = true)
          ∧ zs = (ls.map (fun l => '.' :: l)).flatten := by
  constructor
  · intro h
    generalize hr : Rx.star (.seq (.cls (fun c => c == '.')) labelRx) = r at h
    induction h with
    | cls _ => cases hr
    | seq _ _ => cases hr
    | optNone => cases hr
    | optSome _ => cases hr
    | upToNil => cases hr
    | upToCons _ _ => cases hr
    | starNil => exact ⟨[], by simp, rfl⟩
    | starCons h1 h2 _ ih2 =>
      cases hr
      obtain ⟨ls, hls, rfl⟩ := ih2 rfl
      obtain ⟨xs, ys, rfl, hx, hy⟩ := (matches_seq _ _ _).mp h1
      obtain ⟨c, rfl, hc⟩ := (matches_cls _ _).mp hx
      have hdot : c = '.' := by simpa using hc
      subst hdot
      refine ⟨ys :: ls, ?_, by simp⟩
      intro l hl
      rcases List.mem_cons.mp hl with rfl | hl
      · exact (matches_labelRx _).mp hy
      · exact hls l hl
  · rintro ⟨ls, hls, rfl⟩
    induction ls with
    | nil => exact .starNil
    | cons l rest ih =>
      have hl := (matches_labelRx l).mpr (hls l (List.mem_cons_self _ _))
      have hrest := ih (fun m hm => hls m (List.mem_cons_of_mem _ hm))
      have hone : Rx.Matches (.seq (.cls (fun c => c == '.')) labelRx) ('.' :: l) :=
        @Rx.Matches.seq _ _ ['.'] l (.cls (by simp)) hl
      simpa using Rx.Matches.starCons hone hrest

/-- Pieces joined by dots: the first piece, then a dot and a piece, again and
again. -/
theorem intercalate_dot (l0 : List Char) : ∀ ls : List (List Char),
    ['.'].intercalate (l0 :: ls) = l0 ++ (ls.map (fun l => '.' :: l)).flatten
  | [] => by simp [List.intercalate]
  | l1 :: rest => by
    have ih := intercalate_dot l1 rest
    simp only [List.intercalate, List.intersperse_cons₂, List.flatten_cons] at ih ⊢
    rw [ih]
    simp

/-- A label holds no dot. -/
theorem isLabel_no_dot {l : List Char} (h : isLabel l = true) : '.' ∉ l := by
  intro hmem
  exact absurd (isLabel_chars h '.' hmem) (by decide)

/-- The texts of `label(\.label)*` are the texts `isLabels` accepts. -/
theorem isLabels_iff (cs : List Char) :
    isLabels cs = true
      ↔ ∃ (l0 : List Char) (ls : List (List Char)), isLabel l0 = true
          ∧ (∀ l ∈ ls, isLabel l = true) ∧ cs = l0 ++ (ls.map (fun l => '.' :: l)).flatten := by
  constructor
  · intro h
    unfold isLabels at h
    have hsplit : ['.'].intercalate (cs.splitOn '.') = cs := List.intercalate_splitOn cs '.'
    cases hs : cs.splitOn '.' with
    | nil => exact absurd hs (List.splitOnP_ne_nil _ _)
    | cons l0 ls =>
      rw [hs] at h hsplit
      simp only [List.all_cons, Bool.and_eq_true, List.all_eq_true] at h
      exact ⟨l0, ls, h.1, h.2, by rw [← hsplit, intercalate_dot]⟩
  · rintro ⟨l0, ls, h0, hls, rfl⟩
    unfold isLabels
    rw [← intercalate_dot, List.splitOn_intercalate]
    · simp only [List.all_cons, Bool.and_eq_true, List.all_eq_true]
      exact ⟨h0, hls⟩
    · intro l hl
      rcases List.mem_cons.mp hl with rfl | hl
      · exact isLabel_no_dot h0
      · exact isLabel_no_dot (hls l hl)
    · simp

/-- The matcher `rxDNSName` accepts exactly the texts the pattern matches as a
whole. -/
theorem rxDNSName_iff_matches (cs : List Char) :
    rxDNSName cs = true ↔ Rx.Matches dnsNameRx cs := by
  have hbody : ∀ zs, isLabels zs = true
      ↔ Rx.Matches (.seq labelRx (.star (.seq (.cls (fun c => c == '.')) labelRx))) zs := by
    intro zs
    rw [isLabels_iff, matches_seq]
    constructor
    · rintro ⟨l0, ls, h0, hls, rfl⟩
      exact ⟨l0, _, rfl, (matches_labelRx l0).mpr h0, (matches_dotLabels _).mpr ⟨ls, hls, rfl⟩⟩
    · rintro ⟨xs, ys, rfl, hx, hy⟩
      obtain ⟨ls, hls, rfl⟩ := (matches_dotLabels _).mp hy
      exact ⟨xs, ls, (matches_labelRx xs).mp hx, hls, rfl⟩
  unfold dnsNameRx
  rw [matches_seq]
  constructor
  · intro h
    simp only [rxDNSName, Bool.or_eq_true] at h
    rcases h with h | h
    · exact ⟨cs, [], by simp, (hbody cs).mp h, .optNone⟩
    · cases hlast : cs.getLast? with
      | none => simp [hlast] at h
      | some d =>
        simp only [hlast, Bool.and_eq_true] at h
        have hne : cs ≠ [] := by
          intro hnil
          simp [hnil] at hlast
        have hd : cs.getLast hne = d := by
          have := List.getLast?_eq_getLast cs hne
          rw [this] at hlast
          exact Option.some.inj hlast
        have hcs : cs = cs.dropLast ++ [d] := by
          rw [← hd]
          exact (List.dropLast_append_getLast hne).symm
        exact ⟨cs.dropLast, [d], hcs, (hbody _).mp h.2, .optSome (.cls h.1)⟩
  · rintro ⟨body, t, rfl, hb, ht⟩
    have hb2 := (hbody body).mpr hb
    rcases (matches_opt _ _).mp ht with rfl | ht2
    · simp [rxDNSName, hb2]
    · obtain ⟨c, rfl, hc⟩ := (matches_cls _ _).mp ht2
      simp only [rxDNSName, Bool.or_eq_true]
      right
      simp [hc, hb2]

/-! ## An invalid domain (C2) -/

/-- C2. For every environment, client (endpoint, token, transport), flags and
position: when the domain fails the DNS-name validation, and in particular
when it holds a `*`, `GetIssuances` returns `ErrorInvalidDomain` and the nil
slice, and no request reaches the transport's `Do`. -/
theorem GetIssuances_invalid_domain (env : Env) (c : CertspotterClient) (domain : String)
    (W S : Bool) (P : Nat)
    (h : IsDNSName env.IsIP domain = false ∨ '*' ∈ domain.toList) :
    (c.GetIssuances env domain W S P).err = some ErrorInvalidDomain
    ∧ (c.GetIssuances env domain W S P).issuances = none
    ∧ (c.GetIssuances env domain W S P).calls = [] := by
  have hv : IsDNSName env.IsIP domain = false := by
    rcases h with h | h
    · exact h
    · exact IsDNSName_star h
  simp [CertspotterClient.GetIssuances, hv]

/-- C2 at the input of `TestGetIssuanceInvalidDomain`: the domain
`*.example.com` with the test double as transport. -/
theorem GetIssuances_invalid_domain_witness :
    '*' ∈ "*.example.com".toList
    ∧ (CertspotterClient.GetIssuances sampleEnv ⟨"", "", some (MockClient "[]")⟩
        "*.example.com" true true 0).err = some ErrorInvalidDomain
    ∧ (CertspotterClient.GetIssuances sampleEnv ⟨"", "", some (MockClient "[]")⟩
        "*.example.com" true true 0).issuances = none
    ∧ (CertspotterClient.GetIssuances sampleEnv ⟨"", "", some (MockClient "[]")⟩
        "*.example.com" true true 0).calls = [] :=
  ⟨by decide, GetIssuances_invalid_domain sampleEnv ⟨"", "", some (MockClient "[]")⟩
    "*.example.com" true true 0 (Or.inr (by decide))⟩

/-! ## What reaches the transport, and what comes back -/

/-- The request `get` builds for a query string: method `GET`, the endpoint
followed by the query string, and the bearer header when there is a token. -/
theorem get_calls (env : Env) (c : CertspotterClient) (q : String) :
    (c.get env q).calls =
      if env.urlParses (c.Endpoint ++ q) = true then
        [⟨"GET", c.Endpoint ++ q,
          if c.Token ≠ "" then ⟨[("Authorization", ["Bearer " ++ c.Token])]⟩ else ⟨[]⟩⟩]
      else [] := by
  unfold CertspotterClient.get NewRequest
  by_cases hu : env.urlParses (c.Endpoint ++ q) = true
  · by_cases ht : c.Token = ""
    · simp only [hu, ht, if_true, ne_eq, not_true_eq_false, if_false]
      split
      · rfl
      · split
        · rfl
        · split <;> rfl
    · simp only [hu, ht, if_true, ne_eq, not_false_eq_true, Header.Set, List.filter_nil]
      split
      · rfl
      · split
        · rfl
        · split <;> rfl
  · simp [hu]

/-- With a valid domain, `GetIssuances` makes the calls of `get` on the query
string of `getQueryParams`. -/
theorem GetIssuances_calls (env : Env) (c : CertspotterClient) (domain : String)
    (W S : Bool) (P : Nat) (hv : IsDNSName env.IsIP domain = true) :
    (c.GetIssuances env domain W S P).calls
      = (c.get env (c.getQueryParams domain W S P)).calls := by
  simp only [CertspotterClient.GetIssuances, hv, Bool.not_true, Bool.false_eq_true, if_false]
  split
  · rfl
  · split <;> rfl

/-- With a valid domain, a request that reached the transport and the
response the transport gave to it, `get` returns what the status code says:
the rate-limit error for 429, the status error for any other code than 200,
and for 200 what reading the body gave. -/
theorem get_of_response (env : Env) (c : CertspotterClient) (q : String) (req : Request)
    (res : Response) (hcall : (c.get env q).calls = [req]) (hdo : c.doer env req = .ok res) :
    ((c.get env q).body, (c.get env q).err) =
      if res.StatusCode = 429 then
        (none, some (.errorf ("hit Cert Spotter\x27s API limit. Retry-After: "
          ++ res.Header.Get "Retry-After")))
      else if res.StatusCode ≠ 200 then
        (none, some (.errorf ("undocumented status code returned by the Cert Spotter API: "
          ++ fmtInt res.StatusCode)))
      else (some res.Body.data, res.Body.err) := by
  have hc := get_calls env c q
  rw [hcall] at hc
  by_cases hu : env.urlParses (c.Endpoint ++ q) = true
  · simp only [hu, if_true, List.cons.injEq, and_true] at hc
    subst hc
    unfold CertspotterClient.get NewRequest
    by_cases ht : c.Token = ""
    · simp only [hu, ht, if_true, ne_eq, not_true_eq_false, if_false] at hdo ⊢
      rw [hdo]
      by_cases h1 : res.StatusCode = 429
      · simp [h1]
      · by_cases h2 : res.StatusCode = 200
        · simp [h2]
        · simp [h1, h2]
    · simp only [hu, ht, if_true, ne_eq, not_false_eq_true, Header.Set, List.filter_nil]
        at hdo ⊢
      rw [hdo]
      by_cases h1 : res.StatusCode = 429
      · simp [h1]
      · by_cases h2 : res.StatusCode = 200
        · simp [h2]
        · simp [h1, h2]
  · simp [hu] at hc

/-- With a valid domain, `GetIssuances` returns the error of `get` with the
nil slice, and otherwise what `json.Unmarshal` made of the body: the decoded
slice without error, or the nil slice with the error of the decoder. -/
theorem GetIssuances_of_get (env : Env) (c : CertspotterClient) (domain : String)
    (W S : Bool) (P : Nat) (hv : IsDNSName env.IsIP domain = true) :
    ((c.GetIssuances env domain W S P).issuances, (c.GetIssuances env domain W S P).err) =
      match (c.get env (c.getQueryParams domain W S P)).err with
      | some e => (none, some e)
      | none =>
        match Unmarshal ((c.get env (c.getQueryParams domain W S P)).body.getD "") none with
        | .ok issuances => (issuances, none)
        | .saved _ e => (none, some e)
        | .abort e => (none, some e) := by
  simp only [CertspotterClient.GetIssuances, hv, Bool.not_true, Bool.false_eq_true, if_false]
  split
  · rfl
  · split <;> rfl

/-- The text of a concatenation is the concatenation of the texts. -/
theorem toList_append (a b : String) : (a ++ b).toList = a.toList ++ b.toList := by
  cases a
  cases b
  rfl

/-- With a valid domain, a request that reached the transport and the
response the transport gave to it, `GetIssuances` returns what the status code
says: the rate-limit error for 429, the status error for any other code than
200, and for 200 the error of reading the body or what `json.Unmarshal` makes
of the bytes read. -/
theorem GetIssuances_of_response (env : Env) (c : CertspotterClient) (domain : String)
    (W S : Bool) (P : Nat) (req : Request) (res : Response)
    (hv : IsDNSName env.IsIP domain = true)
    (hcall : (c.GetIssuances env domain W S P).calls = [req])
    (hdo : c.doer env req = .ok res) :
    ((c.GetIssuances env domain W S P).issuances, (c.GetIssuances env domain W S P).err) =
      if res.StatusCode = 429 then
        (none, some (.errorf ("hit Cert Spotter\x27s API limit. Retry-After: "
          ++ res.Header.Get "Retry-After")))
      else if res.StatusCode ≠ 200 then
        (none, some (.errorf ("undocumented status code returned by the Cert Spotter API: "
          ++ fmtInt res.StatusCode)))
      else
        match res.Body.err with
        | some e => (none, some e)
        | none =>
          match Unmarshal res.Body.data none with
          | .ok issuances => (issuances, none)
          | .saved _ e => (none, some e)
          | .abort e => (none, some e) := by
  have hg := GetIssuances_of_get env c domain W S P hv
  rw [GetIssuances_calls env c domain W S P hv] at hcall
  have hr := get_of_response env c _ req res hcall hdo
  by_cases h429 : res.StatusCode = 429
  · rw [if_pos h429, Prod.mk.injEq] at hr
    rw [hr.2] at hg
    rw [if_pos h429]
    exact hg
  · by_cases h200 : res.StatusCode = 200
    · rw [if_neg h429, if_neg (by simp [h200]), Prod.mk.injEq] at hr
      rw [hr.2, hr.1] at hg
      rw [if_neg h429, if_neg (by simp [h200])]
      simpa using hg
    · rw [if_neg h429, if_pos h200, Prod.mk.injEq] at hr
      rw [hr.2] at hg
      rw [if_neg h429, if_pos h200]
      exact hg

/-! ## The request (C8) -/

/-- C8. For every valid domain, flags and position, every request that
`GetIssuances` hands to the transport is an HTTP `GET` whose URL is the
client's `Endpoint` immediately followed by `getQueryParams(domain, ...)`; its
header holds `Authorization: Bearer <Token>` and nothing else when the token
is not empty, and holds nothing at all when the token is empty. At most one
request is handed over, and exactly one when the URL parses. -/
theorem GetIssuances_request (env : Env) (c : CertspotterClient) (domain : String)
    (W S : Bool) (P : Nat) (hv : IsDNSName env.IsIP domain = true) :
    (∀ req ∈ (c.GetIssuances env domain W S P).calls,
      req.Method = "GET"
      ∧ req.URL = c.Endpoint ++ c.getQueryParams domain W S P
      ∧ (c.Token ≠ "" → req.Header = ⟨[("Authorization", ["Bearer " ++ c.Token])]⟩)
      ∧ (c.Token = "" → req.Header = ⟨[]⟩)
      ∧ (req.Header.entries.lookup "Authorization" = some ["Bearer " ++ c.Token]
          ↔ c.Token ≠ ""))
    ∧ (c.GetIssuances env domain W S P).calls.length ≤ 1
    ∧ (env.urlParses (c.Endpoint ++ c.getQueryParams domain W S P) = true →
        (c.GetIssuances env domain W S P).calls.length = 1) := by
  rw [GetIssuances_calls env c domain W S P hv, get_calls]
  by_cases hu : env.urlParses (c.Endpoint ++ c.getQueryParams domain W S P) = true
  · simp only [hu, if_true, List.mem_singleton, List.length_singleton, le_refl, forall_true_left,
      and_true, forall_eq]
    by_cases ht : c.Token = ""
    · simp [ht]
    · simp only [ne_eq, ht, not_false_eq_true, if_true, forall_true_left, true_and,
        IsEmpty.forall_iff, and_true, iff_true]
      simp [List.lookup]
  · simp [hu]

/-- C8 at a concrete input: the domain `example.com` with a token and with an
empty token. -/
theorem GetIssuances_request_witness :
    (CertspotterClient.GetIssuances sampleEnv
        ⟨"https://api.certspotter.com/v1/issuances", "s3cret", some (MockClient "[]")⟩
        "example.com" false true 5).calls =
      [⟨"GET", "https://api.certspotter.com/v1/issuances?expand=dns_names&expand=issuer&expand=cert&expand=pubkey&domain=example.com&after=5&include_subdomains=true",
        ⟨[("Authorization", ["Bearer s3cret"])]⟩⟩]
    ∧ (CertspotterClient.GetIssuances sampleEnv
        ⟨"https://api.certspotter.com/v1/issuances", "", some (MockClient "[]")⟩
        "example.com" false true 5).calls =
      [⟨"GET", "https://api.certspotter.com/v1/issuances?expand=dns_names&expand=issuer&expand=cert&expand=pubkey&domain=example.com&after=5&include_subdomains=true",
        ⟨[]⟩⟩]
    ∧ (CertspotterClient.GetIssuances sampleEnv
        ⟨"https://api.certspotter.com/v1/issuances", "", some (MockClient "[]")⟩
        "example.com" false true 5).calls.length ≤ 1 :=
  ⟨by decide, by decide,
    (GetIssuances_request sampleEnv
      ⟨"https://api.certspotter.com/v1/issuances", "", some (MockClient "[]")⟩
      "example.com" false true 5 (by decide)).2.1⟩

/-! ## The empty array (C6) -/

/-- C6. For every valid domain, flags and position, when the transport
answers the request with status 200 and the body `[]`, `GetIssuances` returns
no error and the empty slice that is not nil (`some []`, the value
`[]Issuance{}`), not the nil slice (`none`). -/
theorem GetIssuances_empty_array (env : Env) (c : CertspotterClient) (domain : String)
    (W S : Bool) (P : Nat) (req : Request) (res : Response)
    (hv : IsDNSName env.IsIP domain = true)
    (hcall : (c.GetIssuances env domain W S P).calls = [req])
    (hdo : c.doer env req = .ok res)
    (hs : res.StatusCode = 200)
    (hb : res.Body = ⟨"[]", none⟩) :
    (c.GetIssuances env domain W S P).err = none
    ∧ (c.GetIssuances env domain W S P).issuances = some []
    ∧ (c.GetIssuances env domain W S P).issuances ≠ none := by
  have h := GetIssuances_of_response env c domain W S P req res hv hcall hdo
  have hu : Unmarshal "[]" none = .ok (some []) := by decide
  rw [if_neg (by rw [hs]; decide), if_neg (by simp [hs]), hb] at h
  simp only [hu, Prod.mk.injEq] at h
  simp [h.1, h.2]

/-- C6 at the input of `TestGetIssuancesEmpty`: the test double with the
content `[]`, the domain `example.com`, both flags set and position 0. -/
theorem GetIssuances_empty_array_witness :
    (CertspotterClient.GetIssuances sampleEnv ⟨"", "", some (MockClient "[]")⟩
        "example.com" true true 0).err = none
    ∧ (CertspotterClient.GetIssuances sampleEnv ⟨"", "", some (MockClient "[]")⟩
        "example.com" true true 0).issuances = some []
    ∧ (CertspotterClient.GetIssuances sampleEnv ⟨"", "", some (MockClient "[]")⟩
        "example.com" true true 0).issuances ≠ none :=
  GetIssuances_empty_array sampleEnv ⟨"", "", some (MockClient "[]")⟩ "example.com" true true 0
    ⟨"GET", "?expand=dns_names&expand=issuer&expand=cert&expand=pubkey&domain=example.com&match_wildcards=true&include_subdomains=true", ⟨[]⟩⟩
    ⟨200, ⟨[]⟩, ⟨"[]", none⟩⟩
    (by decide) (by decide) rfl rfl rfl

/-! ## The parameters of the query string (C9) -/

/-- The decimal digit of a number below ten is a digit. -/
theorem digitChar_isDigit (d : Nat) (h : d < 10) : (Nat.digitChar d).isDigit = true := by
  interval_cases d <;> decide

/-- The digits `toDigitsCore` puts before digits are digits. -/
theorem toDigitsCore_isDigit : ∀ (fuel n : Nat) (ds : List Char),
    (∀ c ∈ ds, c.isDigit = true) → ∀ c ∈ Nat.toDigitsCore 10 fuel n ds, c.isDigit = true
  | 0, _, ds, h => by simpa [Nat.toDigitsCore] using h
  | fuel + 1, n, ds, h => by
    have hd : ∀ c ∈ Nat.digitChar (n % 10) :: ds, c.isDigit = true := by
      intro c hc
      rcases List.mem_cons.mp hc with rfl | hc
      · exact digitChar_isDigit _ (Nat.mod_lt _ (by decide))
      · exact h c hc
    simp only [Nat.toDigitsCore]
    split
    · exact hd
    · exact toDigitsCore_isDigit fuel (n / 10) _ hd

/-- The decimal rendering of a number is made of digits. -/
theorem fmtUint_isDigit (n : Nat) : ∀ c ∈ (fmtUint n).toList, c.isDigit = true := by
  intro c hc
  have : (fmtUint n).toList = Nat.toDigitsCore 10 (n + 1) n [] := rfl
  rw [this] at hc
  exact toDigitsCore_isDigit (n + 1) n [] (by simp) c hc

/-- The text of the query string, piece by piece. -/
theorem getQueryParams_toList (c : CertspotterClient) (D : String) (W S : Bool) (P : Nat) :
    (c.getQueryParams D W S P).toList =
      '?' :: ['&'].intercalate
        (["expand=dns_names".toList, "expand=issuer".toList, "expand=cert".toList,
          "expand=pubkey".toList, "domain=".toList ++ D.toList]
          ++ (if 0 < P then ["after=".toList ++ (fmtUint P).toList] else [])
          ++ (if W = true then ["match_wildcards=true".toList] else [])
          ++ (if S = true then ["include_subdomains=true".toList] else [])) := by
  simp only [CertspotterClient.getQueryParams, defaultParams, gt_iff_lt]
  by_cases hP : 0 < P <;> cases W <;> cases S <;>
    simp [hP, toList_append, List.intercalate]

/-- A text without the separator that occurs in two texts joined by the
separator occurs in one of the two. -/
theorem occursIn_append_sep (sep : Char) (pat xs ys : List Char) (hsep : sep ∉ pat)
    (h : occursIn pat (xs ++ sep :: ys)) : occursIn pat xs ∨ occursIn pat ys := by
  obtain ⟨a, b, hab⟩ := h
  rw [List.append_assoc] at hab
  rcases List.append_eq_append_iff.mp hab with ⟨a2, ha, hrest⟩ | ⟨c2, hxs, hrest⟩
  · -- the occurrence starts at or after the separator
    cases a2 with
    | nil =>
      cases pat with
      | nil => exact Or.inl ⟨xs, [], by simp⟩
      | cons p ps =>
        simp only [List.nil_append, List.cons_append, List.cons.injEq] at hrest
        exact absurd (hrest.1 ▸ List.mem_cons_self _ _) hsep
    | cons c a3 =>
      simp only [List.cons_append, List.cons.injEq] at hrest
      exact Or.inr ⟨a3, b, by rw [List.append_assoc]; exact hrest.2⟩
  · -- the occurrence starts before the separator
    rcases List.append_eq_append_iff.mp hrest with ⟨d, hc2, _⟩ | ⟨d, hpat, hsepd⟩
    · exact Or.inl ⟨a, d, by rw [hxs, hc2, List.append_assoc]⟩
    · cases d with
      | nil =>
        simp only [List.append_nil] at hpat
        exact Or.inl ⟨a, [], by simp [hxs, hpat]⟩
      | cons e d2 =>
        simp only [List.cons_append, List.cons.injEq] at hsepd
        have : sep ∈ pat := by
          rw [hpat, hsepd.1]
          simp
        exact absurd this hsep

/-- A text without the separator that occurs in pieces joined by the
separator occurs in one of the pieces. -/
theorem occursIn_intercalate (sep : Char) (pat : List Char) (hsep : sep ∉ pat) :
    ∀ segs : List (List Char), occursIn pat ([sep].intercalate segs) →
      pat = [] ∨ ∃ seg ∈ segs, occursIn pat seg
  | [], h => by
    obtain ⟨a, b, hab⟩ := h
    left
    simp only [List.intercalate, List.intersperse_nil, List.flatten_nil] at hab
    have := congrArg List.length hab
    simp only [List.length_nil, List.length_append] at this
    exact List.length_eq_zero.mp (by omega)
  | [s], h => by
    right
    exact ⟨s, by simp, by simpa [List.intercalate] using h⟩
  | s :: s2 :: rest, h => by
    have hform : [sep].intercalate (s :: s2 :: rest)
        = s ++ sep :: [sep].intercalate (s2 :: rest) := by
      simp [List.intercalate]
    rw [hform] at h
    rcases occursIn_append_sep sep pat _ _ hsep h with h1 | h1
    · exact Or.inr ⟨s, by simp, h1⟩
    · rcases occursIn_intercalate sep pat hsep (s2 :: rest) h1 with h2 | ⟨seg, hseg, hocc⟩
      · exact Or.inl h2
      · exact Or.inr ⟨seg, List.mem_cons_of_mem _ hseg, hocc⟩

/-- A text that occurs in a piece occurs in the pieces joined. -/
theorem occursIn_of_piece (sep : Char) (pat : List Char) :
    ∀ (segs : List (List Char)) (seg : List Char), seg ∈ segs → occursIn pat seg →
      occursIn pat ([sep].intercalate segs)
  | [], _, h, _ => by simp at h
  | [s], seg, h, hocc => by
    have : seg = s := by simpa using h
    subst this
    simpa [List.intercalate] using hocc
  | s :: s2 :: rest, seg, h, hocc => by
    have hform : [sep].intercalate (s :: s2 :: rest)
        = s ++ sep :: [sep].intercalate (s2 :: rest) := by
      simp [List.intercalate]
    rw [hform]
    rcases List.mem_cons.mp h with h1 | h1
    · subst h1
      obtain ⟨a, b, hab⟩ := hocc
      exact ⟨a, b ++ sep :: [sep].intercalate (s2 :: rest), by rw [hab]; simp⟩
    · obtain ⟨a, b, hab⟩ := occursIn_of_piece sep pat (s2 :: rest) seg h1 hocc
      exact ⟨s ++ sep :: a, b, by rw [hab]; simp⟩

/-- A text with a single `e` is cut at it in one way only. -/
theorem split_unique (e : Char) : ∀ (k k2 v v2 : List Char), e ∉ k → e ∉ v →
    k ++ e :: v = k2 ++ e :: v2 → k = k2 ∧ v = v2
  | [], [], v, v2, _, _, h => by
    simp only [List.nil_append, List.cons.injEq, true_and] at h
    exact ⟨rfl, h⟩
  | [], c :: k3, v, v2, _, hv, h => by
    simp only [List.nil_append, List.cons_append, List.cons.injEq] at h
    exact absurd (h.2 ▸ (by simp : e ∈ k3 ++ e :: v2)) hv
  | c :: k0, [], v, v2, hk, _, h => by
    simp only [List.nil_append, List.cons_append, List.cons.injEq] at h
    exact absurd (h.1 ▸ List.mem_cons_self _ _) hk
  | c :: k0, c2 :: k3, v, v2, hk, hv, h => by
    simp only [List.cons_append, List.cons.injEq] at h
    have hk0 : e ∉ k0 := fun hm => hk (List.mem_cons_of_mem _ hm)
    obtain ⟨h1, h2⟩ := split_unique e k0 k3 v v2 hk0 hv h.2
    exact ⟨by rw [h.1, h1], h2⟩

/-- A pattern `u=w` that occurs in a parameter `k=v` with no other `=`: the
name `k` ends in `u` and the value `v` starts with `w`. -/
theorem occursIn_keyvalue (k v u w : List Char) (hk : '=' ∉ k) (hv : '=' ∉ v)
    (h : occursIn (u ++ '=' :: w) (k ++ '=' :: v)) :
    k.drop (k.length - u.length) = u ∧ v.take w.length = w := by
  obtain ⟨a, b, hab⟩ := h
  have hab2 : k ++ '=' :: v = (a ++ u) ++ '=' :: (w ++ b) := by
    rw [hab]
    simp
  obtain ⟨hk2, hv2⟩ := split_unique '=' k (a ++ u) v (w ++ b) hk hv hab2
  constructor
  · rw [hk2]
    simp
  · rw [hv2]
    simp

/-- The text of the query string: `?`, then the parameters as `name=value`
joined by `&`. -/
theorem getQueryParams_pairs (c : CertspotterClient) (D : String) (W S : Bool) (P : Nat) :
    (c.getQueryParams D W S P).toList =
      '?' :: ['&'].intercalate ((paramPairs D W S P).map (fun kv => kv.1 ++ '=' :: kv.2)) := by
  rw [getQueryParams_toList]
  unfold paramPairs
  by_cases hP : 0 < P <;> cases W <;> cases S <;> simp [hP]

/-- The names and values of the parameters hold no `=`, the names are among
the five names of the API, and the names `after`, `match_wildcards` and
`include_subdomains` are there only when asked for. -/
theorem paramPairs_clean (IsIP : String → Bool) (D : String) (W S : Bool) (P : Nat)
    (hv : IsDNSName IsIP D = true) :
    ∀ kv ∈ paramPairs D W S P,
      '=' ∉ kv.1 ∧ '=' ∉ kv.2
      ∧ kv.1 ∈ ["expand".toList, "domain".toList, "after".toList, "match_wildcards".toList,
          "include_subdomains".toList]
      ∧ (kv.1 = "after".toList → 0 < P)
      ∧ (kv.1 = "match_wildcards".toList → W = true)
      ∧ (kv.1 = "include_subdomains".toList → S = true) := by
  have hD : '=' ∉ D.toList := by
    intro hmem
    rcases IsDNSName_chars hv '=' hmem with h | h
    · exact absurd h (by decide)
    · exact absurd h (by decide)
  have hdig : '=' ∉ (fmtUint P).toList := by
    intro hmem
    exact absurd (fmtUint_isDigit P '=' hmem) (by decide)
  have hexp : ∀ v : List Char, '=' ∉ v →
      '=' ∉ "expand".toList ∧ '=' ∉ v
      ∧ "expand".toList ∈ ["expand".toList, "domain".toList, "after".toList,
          "match_wildcards".toList, "include_subdomains".toList]
      ∧ ("expand".toList = "after".toList → 0 < P)
      ∧ ("expand".toList = "match_wildcards".toList → W = true)
      ∧ ("expand".toList = "include_subdomains".toList → S = true) := by
    intro v hval
    exact ⟨by decide, hval, by decide, fun h => absurd h (by decide),
      fun h => absurd h (by decide), fun h => absurd h (by decide)⟩
  intro kv hkv
  unfold paramPairs at hkv
  simp only [List.mem_append, List.mem_cons, List.mem_singleton, List.not_mem_nil,
    or_false] at hkv
  rcases hkv with ((hkv | hkv) | hkv) | hkv
  · rcases hkv with rfl | rfl | rfl | rfl | rfl
    · exact hexp _ (by decide)
    · exact hexp _ (by decide)
    · exact hexp _ (by decide)
    · exact hexp _ (by decide)
    · show '=' ∉ "domain".toList ∧ '=' ∉ D.toList
        ∧ "domain".toList ∈ ["expand".toList, "domain".toList, "after".toList,
            "match_wildcards".toList, "include_subdomains".toList]
        ∧ ("domain".toList = "after".toList → 0 < P)
        ∧ ("domain".toList = "match_wildcards".toList → W = true)
        ∧ ("domain".toList = "include_subdomains".toList → S = true)
      exact ⟨by decide, hD, by decide, fun h => absurd h (by decide),
        fun h => absurd h (by decide), fun h => absurd h (by decide)⟩
  · split at hkv
    · rename_i hP
      rw [List.mem_singleton] at hkv
      subst hkv
      show '=' ∉ "after".toList ∧ '=' ∉ (fmtUint P).toList
        ∧ "after".toList ∈ ["expand".toList, "domain".toList, "after".toList,
            "match_wildcards".toList, "include_subdomains".toList]
        ∧ ("after".toList = "after".toList → 0 < P)
        ∧ ("after".toList = "match_wildcards".toList → W = true)
        ∧ ("after".toList = "include_subdomains".toList → S = true)
      exact ⟨by decide, hdig, by decide, fun _ => hP,
        fun h => absurd h (by decide), fun h => absurd h (by decide)⟩
    · simp at hkv
  · split at hkv
    · rename_i hW
      rw [List.mem_singleton] at hkv
      subst hkv
      show '=' ∉ "match_wildcards".toList ∧ '=' ∉ "true".toList
        ∧ "match_wildcards".toList ∈ ["expand".toList, "domain".toList, "after".toList,
            "match_wildcards".toList, "include_subdomains".toList]
        ∧ ("match_wildcards".toList = "after".toList → 0 < P)
        ∧ ("match_wildcards".toList = "match_wildcards".toList → W = true)
        ∧ ("match_wildcards".toList = "include_subdomains".toList → S = true)
      exact ⟨by decide, by decide, by decide, fun h => absurd h (by decide),
        fun _ => hW, fun h => absurd h (by decide)⟩
    · simp at hkv
  · split at hkv
    · rename_i hS
      rw [List.mem_singleton] at hkv
      subst hkv
      show '=' ∉ "include_subdomains".toList ∧ '=' ∉ "true".toList
        ∧ "include_subdomains".toList ∈ ["expand".toList, "domain".toList, "after".toList,
            "match_wildcards".toList, "include_subdomains".toList]
        ∧ ("include_subdomains".toList = "after".toList → 0 < P)
        ∧ ("include_subdomains".toList = "match_wildcards".toList → W = true)
        ∧ ("include_subdomains".toList = "include_subdomains".toList → S = true)
      exact ⟨by decide, by decide, by decide, fun h => absurd h (by decide),
        fun h => absurd h (by decide), fun _ => hS⟩
    · simp at hkv

/-- Among the five names of the API, a name that ends in one of `after`,
`match_wildcards` and `include_subdomains` is that name. -/
theorem name_of_ending :
    ∀ k ∈ ["expand".toList, "domain".toList, "after".toList, "match_wildcards".toList,
        "include_subdomains".toList],
      ∀ u ∈ ["after".toList, "match_wildcards".toList, "include_subdomains".toList],
        k.drop (k.length - u.length) = u → k = u := by
  decide

/-- A pattern `u=w`, with `u` one of `after`, `match_wildcards` and
`include_subdomains` and `w` free of `&` and `?`, occurs in the query string of
an accepted domain only inside a parameter whose name is `u`. -/
theorem occursIn_query (IsIP : String → Bool) (c : CertspotterClient) (D : String)
    (W S : Bool) (P : Nat) (hv : IsDNSName IsIP D = true) (u w : List Char)
    (hu : u ∈ ["after".toList, "match_wildcards".toList, "include_subdomains".toList])
    (hw : '&' ∉ w ∧ '?' ∉ w)
    (h : occursIn (u ++ '=' :: w) (c.getQueryParams D W S P).toList) :
    ∃ kv ∈ paramPairs D W S P, kv.1 = u := by
  have hu2 : '&' ∉ u ∧ '?' ∉ u := by
    simp only [List.mem_cons, List.mem_singleton, List.not_mem_nil, or_false] at hu
    rcases hu with rfl | rfl | rfl <;> exact ⟨by decide, by decide⟩
  have hamp : '&' ∉ u ++ '=' :: w := by
    simp only [List.mem_append, List.mem_cons, not_or]
    exact ⟨hu2.1, by decide, hw.1⟩
  have hq : '?' ∉ u ++ '=' :: w := by
    simp only [List.mem_append, List.mem_cons, not_or]
    exact ⟨hu2.2, by decide, hw.2⟩
  rw [getQueryParams_pairs] at h
  have h2 : occursIn (u ++ '=' :: w)
      ([] ++ '?' :: ['&'].intercalate
        ((paramPairs D W S P).map (fun kv => kv.1 ++ '=' :: kv.2))) := by
    simpa using h
  have hne : u ++ '=' :: w ≠ [] := by simp
  rcases occursIn_append_sep '?' _ _ _ hq h2 with h3 | h3
  · obtain ⟨a, b, hab⟩ := h3
    have := congrArg List.length hab
    simp at this
    omega
  · rcases occursIn_intercalate '&' _ hamp _ h3 with h4 | ⟨seg, hseg, hocc⟩
    · exact absurd h4 hne
    · obtain ⟨kv, hkv, rfl⟩ := List.mem_map.mp hseg
      obtain ⟨hk, hval, hname, _⟩ := paramPairs_clean IsIP D W S P hv kv hkv
      have hend := (occursIn_keyvalue kv.1 kv.2 u w hk hval hocc).1
      exact ⟨kv, hkv, name_of_ending kv.1 hname u hu hend⟩

/-- The query string of an accepted domain holds the text `after=` iff the
position is not 0, the text `match_wildcards=true` iff wildcards are asked
for, and the text `include_subdomains=true` iff subdomains are asked for. -/
theorem getQueryParams_occurs (IsIP : String → Bool) (c : CertspotterClient) (D : String)
    (W S : Bool) (P : Nat) (hv : IsDNSName IsIP D = true) :
    (occursIn "after=".toList (c.getQueryParams D W S P).toList ↔ P ≠ 0)
    ∧ (occursIn "match_wildcards=true".toList (c.getQueryParams D W S P).toList ↔ W = true)
    ∧ (occursIn "include_subdomains=true".toList (c.getQueryParams D W S P).toList
        ↔ S = true) := by
  have hback : ∀ (pat : List Char) (kv : List Char × List Char) (b : List Char),
      kv ∈ paramPairs D W S P → kv.1 ++ '=' :: kv.2 = pat ++ b →
      occursIn pat (c.getQueryParams D W S P).toList := by
    intro pat kv b hkv hform
    rw [getQueryParams_pairs]
    obtain ⟨a2, b2, hab⟩ := occursIn_of_piece '&' pat
      ((paramPairs D W S P).map (fun kv => kv.1 ++ '=' :: kv.2)) (kv.1 ++ '=' :: kv.2)
      (List.mem_map.mpr ⟨kv, hkv, rfl⟩) ⟨[], b, by simpa using hform⟩
    exact ⟨'?' :: a2, b2, by rw [hab]; simp⟩
  refine ⟨⟨?_, ?_⟩, ⟨?_, ?_⟩, ⟨?_, ?_⟩⟩
  · intro h
    obtain ⟨kv, hkv, hname⟩ := occursIn_query IsIP c D W S P hv "after".toList []
      (by decide) (by decide) h
    have hpos := (paramPairs_clean IsIP D W S P hv kv hkv).2.2.2.1 hname
    omega
  · intro hP
    have hpos : 0 < P := Nat.pos_of_ne_zero hP
    exact hback _ ("after".toList, (fmtUint P).toList) (fmtUint P).toList
      (by unfold paramPairs; simp [hpos]) rfl
  · intro h
    obtain ⟨kv, hkv, hname⟩ := occursIn_query IsIP c D W S P hv "match_wildcards".toList
      "true".toList (by decide) (by decide) h
    exact (paramPairs_clean IsIP D W S P hv kv hkv).2.2.2.2.1 hname
  · intro hW
    exact hback _ ("match_wildcards".toList, "true".toList) []
      (by unfold paramPairs; simp [hW]) rfl
  · intro h
    obtain ⟨kv, hkv, hname⟩ := occursIn_query IsIP c D W S P hv "include_subdomains".toList
      "true".toList (by decide) (by decide) h
    exact (paramPairs_clean IsIP D W S P hv kv hkv).2.2.2.2.2 hname
  · intro hS
    exact hback _ ("include_subdomains".toList, "true".toList) []
      (by unfold paramPairs; simp [hS]) rfl

/-- C9. For every domain `D` accepted by the DNS-name validation, flags `W`
and `S` and position `P`: cut at its `&`, the query string consists of the four
`expand` parameters, `domain=D`, then `after=P` iff `P` is not 0,
`match_wildcards=true` iff `W`, `include_subdomains=true` iff `S`, and nothing
else. So it holds an `after=` parameter iff `P` is not 0, holds
`match_wildcards=true` iff `W` and holds `include_subdomains=true` iff `S`, as
parameters and also as plain texts occurring anywhere in the string; and an
accepted domain holds neither `&` nor `=`, so it cannot contribute a parameter
of its own. -/
theorem getQueryParams_parameters (IsIP : String → Bool) (c : CertspotterClient)
    (D : String) (W S : Bool) (P : Nat) (hv : IsDNSName IsIP D = true) :
    queryParams (c.getQueryParams D W S P) =
        ["expand=dns_names".toList, "expand=issuer".toList, "expand=cert".toList,
          "expand=pubkey".toList, "domain=".toList ++ D.toList]
          ++ (if 0 < P then ["after=".toList ++ (fmtUint P).toList] else [])
          ++ (if W = true then ["match_wildcards=true".toList] else [])
          ++ (if S = true then ["include_subdomains=true".toList] else [])
    ∧ (hasParam "after" (c.getQueryParams D W S P) = true ↔ P ≠ 0)
    ∧ (hasParamValue "match_wildcards" "true" (c.getQueryParams D W S P) = true ↔ W = true)
    ∧ (hasParamValue "include_subdomains" "true" (c.getQueryParams D W S P) = true ↔ S = true)
    ∧ (hasParam "match_wildcards" (c.getQueryParams D W S P) = true ↔ W = true)
    ∧ (hasParam "include_subdomains" (c.getQueryParams D W S P) = true ↔ S = true)
    ∧ (∀ ch ∈ D.toList, ch ≠ '&' ∧ ch ≠ '=')
    ∧ (occursIn "after=".toList (c.getQueryParams D W S P).toList ↔ P ≠ 0)
    ∧ (occursIn "match_wildcards=true".toList (c.getQueryParams D W S P).toList ↔ W = true)
    ∧ (occursIn "include_subdomains=true".toList (c.getQueryParams D W S P).toList
        ↔ S = true) := by
  have hocc := getQueryParams_occurs IsIP c D W S P hv
  have hD : ∀ ch ∈ D.toList, ch ≠ '&' ∧ ch ≠ '=' := by
    intro ch hch
    rcases IsDNSName_chars hv ch hch with h | h
    · constructor <;> (rintro rfl; exact absurd h (by decide))
    · constructor <;> (rintro rfl; exact absurd h (by decide))
  have hdig : ∀ ch ∈ (fmtUint P).toList, ch ≠ '&' := by
    intro ch hch
    have := fmtUint_isDigit P ch hch
    rintro rfl
    exact absurd this (by decide)
  have hq : queryParams (c.getQueryParams D W S P) =
      ["expand=dns_names".toList, "expand=issuer".toList, "expand=cert".toList,
          "expand=pubkey".toList, "domain=".toList ++ D.toList]
          ++ (if 0 < P then ["after=".toList ++ (fmtUint P).toList] else [])
          ++ (if W = true then ["match_wildcards=true".toList] else [])
          ++ (if S = true then ["include_subdomains=true".toList] else []) := by
    unfold queryParams
    rw [getQueryParams_toList, List.drop_one, List.tail_cons]
    apply List.splitOn_intercalate
    · intro l hl
      simp only [List.mem_append, List.mem_cons, List.mem_singleton, List.not_mem_nil,
        or_false] at hl
      rcases hl with ((hl | hl) | hl) | hl
      · rcases hl with rfl | rfl | rfl | rfl | rfl
        · decide
        · decide
        · decide
        · decide
        · intro hmem
          rcases List.mem_append.mp hmem with h | h
          · exact absurd h (by decide)
          · exact (hD _ h).1 rfl
      · split at hl
        · rw [List.mem_singleton] at hl
          subst hl
          intro hmem
          rcases List.mem_append.mp hmem with h | h
          · exact absurd h (by decide)
          · exact hdig _ h rfl
        · simp at hl
      · split at hl
        · rw [List.mem_singleton] at hl
          subst hl
          decide
        · simp at hl
      · split at hl
        · rw [List.mem_singleton] at hl
          subst hl
          decide
        · simp at hl
    · simp
  refine ⟨hq, ?_, ?_, ?_, ?_, ?_, hD, hocc.1, hocc.2.1, hocc.2.2⟩
  · unfold hasParam
    rw [hq]
    by_cases hP : 0 < P <;> cases W <;> cases S <;>
      simp [hP, Nat.pos_iff_ne_zero.mp, List.take] <;> omega
  · unfold hasParamValue
    rw [hq]
    by_cases hP : 0 < P <;> cases W <;> cases S <;> simp [hP]
  · unfold hasParamValue
    rw [hq]
    by_cases hP : 0 < P <;> cases W <;> cases S <;> simp [hP]
  · unfold hasParam
    rw [hq]
    by_cases hP : 0 < P <;> cases W <;> cases S <;> simp [hP, List.take]
  · unfold hasParam
    rw [hq]
    by_cases hP : 0 < P <;> cases W <;> cases S <;> simp [hP, List.take]

/-- C9 at a concrete input: the domain `example.com`, wildcards on,
subdomains off, position 42. -/
theorem getQueryParams_parameters_witness :
    IsDNSName sampleEnv.IsIP "example.com" = true
    ∧ queryParams (CertspotterClient.getQueryParams ⟨"", "", none⟩ "example.com" true false 42)
        = ["expand=dns_names".toList, "expand=issuer".toList, "expand=cert".toList,
            "expand=pubkey".toList, "domain=example.com".toList, "after=42".toList,
            "match_wildcards=true".toList]
    ∧ (hasParam "after"
        (CertspotterClient.getQueryParams ⟨"", "", none⟩ "example.com" true false 42) = true
        ↔ 42 ≠ 0)
    ∧ (hasParamValue "include_subdomains" "true"
        (CertspotterClient.getQueryParams ⟨"", "", none⟩ "example.com" true false 42) = true
        ↔ false = true) :=
  ⟨by decide,
    (getQueryParams_parameters sampleEnv.IsIP ⟨"", "", none⟩ "example.com" true false 42
      (by decide)).1,
    (getQueryParams_parameters sampleEnv.IsIP ⟨"", "", none⟩ "example.com" true false 42
      (by decide)).2.1,
    (getQueryParams_parameters sampleEnv.IsIP ⟨"", "", none⟩ "example.com" true false 42
      (by decide)).2.2.2.1⟩

/-! ## The kinds of error (C10) -/

/-- When the URL does not parse, `get` returns the error of `http.NewRequest`. -/
theorem get_of_bad_url (env : Env) (c : CertspotterClient) (q : String)
    (hu : env.urlParses (c.Endpoint ++ q) = false) :
    (c.get env q).err = some (.urlError (c.Endpoint ++ q)) := by
  unfold CertspotterClient.get NewRequest
  simp [hu]

/-- When the transport fails, `get` returns the transport's error as it is. -/
theorem get_of_transport_error (env : Env) (c : CertspotterClient) (q : String)
    (req : Request) (e : GoError) (hcall : (c.get env q).calls = [req])
    (hdo : c.doer env req = .error e) : (c.get env q).err = some e := by
  have hc := get_calls env c q
  rw [hcall] at hc
  by_cases hu : env.urlParses (c.Endpoint ++ q) = true
  · simp only [hu, if_true, List.cons.injEq, and_true] at hc
    subst hc
    unfold CertspotterClient.get NewRequest
    by_cases ht : c.Token = ""
    · simp only [hu, ht, if_true, ne_eq, not_true_eq_false, if_false] at hdo ⊢
      rw [hdo]
    · simp only [hu, ht, if_true, ne_eq, not_false_eq_true, Header.Set, List.filter_nil]
        at hdo ⊢
      rw [hdo]
  · simp [hu] at hc

/-- C10, the claim as stated, fails: the error of a 429 response and the error
of a 500 response are two different values of one kind. Both are
`*errors.errorString` values made by `fmt.Errorf`, neither is the sentinel, and
the message text is all that tells them apart or holds the `Retry-After` value
and the status code. -/
theorem error_kinds_counterexample :
    (CertspotterClient.GetIssuances sampleEnv
        ⟨"", "", some (cannedClient 429 ⟨[("Retry-After", ["120"])]⟩ "")⟩
        "example.com" false false 0).err
      = some (.errorf "hit Cert Spotter\x27s API limit. Retry-After: 120")
    ∧ (CertspotterClient.GetIssuances sampleEnv ⟨"", "", some (cannedClient 500 ⟨[]⟩ "")⟩
        "example.com" false false 0).err
      = some (.errorf "undocumented status code returned by the Cert Spotter API: 500")
    ∧ (CertspotterClient.GetIssuances sampleEnv
        ⟨"", "", some (cannedClient 429 ⟨[("Retry-After", ["120"])]⟩ "")⟩
        "example.com" false false 0).err.map GoError.kind
      = (CertspotterClient.GetIssuances sampleEnv ⟨"", "", some (cannedClient 500 ⟨[]⟩ "")⟩
        "example.com" false false 0).err.map GoError.kind
    ∧ (CertspotterClient.GetIssuances sampleEnv
        ⟨"", "", some (cannedClient 429 ⟨[("Retry-After", ["120"])]⟩ "")⟩
        "example.com" false false 0).err
      ≠ (CertspotterClient.GetIssuances sampleEnv ⟨"", "", some (cannedClient 500 ⟨[]⟩ "")⟩
        "example.com" false false 0).err := by
  refine ⟨by decide, by decide, by decide, by decide⟩

/-- C10 as amended. Every error `GetIssuances` returns is one of these: the
sentinel `ErrorInvalidDomain` for a domain that fails validation; otherwise the
error of `http.NewRequest`, the error of the transport, the error of reading
the body or the error of `json.Unmarshal`, each returned as it is; or a fresh
`fmt.Errorf` value whose message is `hit Cert Spotter's API limit. Retry-After: `
followed by the `Retry-After` value (status 429) or
`undocumented status code returned by the Cert Spotter API: ` followed by the
decimal status code (any other status than 200). The sentinel is told from the
two `fmt.Errorf` values by identity; those two have the same kind and differ
from each other by their message text only, which is also where the
`Retry-After` value and the status code are. -/
theorem GetIssuances_error_forms (env : Env) (c : CertspotterClient) (domain : String)
    (W S : Bool) (P : Nat) (e : GoError)
    (he : (c.GetIssuances env domain W S P).err = some e) :
    ((e = ErrorInvalidDomain ∧ IsDNSName env.IsIP domain = false)
      ∨ (IsDNSName env.IsIP domain = true
          ∧ ((e = .urlError (c.Endpoint ++ c.getQueryParams domain W S P)
                ∧ env.urlParses (c.Endpoint ++ c.getQueryParams domain W S P) = false)
            ∨ ∃ req, (c.GetIssuances env domain W S P).calls = [req]
                ∧ (c.doer env req = .error e
                  ∨ ∃ res, c.doer env req = .ok res
                      ∧ ((res.StatusCode = 429
                            ∧ e = .errorf ("hit Cert Spotter\x27s API limit. Retry-After: "
                                ++ res.Header.Get "Retry-After"))
                        ∨ (res.StatusCode ≠ 200 ∧ res.StatusCode ≠ 429
                            ∧ e = .errorf
                                ("undocumented status code returned by the Cert Spotter API: "
                                  ++ fmtInt res.StatusCode))
                        ∨ (res.StatusCode = 200 ∧ res.Body.err = some e)
                        ∨ (res.StatusCode = 200 ∧ res.Body.err = none
                            ∧ ((∃ v, Unmarshal res.Body.data none = .saved v e)
                              ∨ Unmarshal res.Body.data none = .abort e)))))))
    ∧ (∀ (ra : String) (code : Int),
        GoError.errorf ("hit Cert Spotter\x27s API limit. Retry-After: " ++ ra)
            ≠ ErrorInvalidDomain
        ∧ GoError.errorf ("undocumented status code returned by the Cert Spotter API: "
              ++ fmtInt code) ≠ ErrorInvalidDomain
        ∧ (GoError.errorf ("hit Cert Spotter\x27s API limit. Retry-After: " ++ ra)).kind
            ≠ ErrorInvalidDomain.kind
        ∧ (GoError.errorf ("hit Cert Spotter\x27s API limit. Retry-After: " ++ ra)).kind
            = (GoError.errorf ("undocumented status code returned by the Cert Spotter API: "
                ++ fmtInt code)).kind
        ∧ "hit Cert Spotter\x27s API limit. Retry-After: " ++ ra
            ≠ "undocumented status code returned by the Cert Spotter API: " ++ fmtInt code) := by
  constructor
  · by_cases hv : IsDNSName env.IsIP domain = true
    · right
      refine ⟨hv, ?_⟩
      have hg := GetIssuances_of_get env c domain W S P hv
      have hcalls := GetIssuances_calls env c domain W S P hv
      have hc := get_calls env c (c.getQueryParams domain W S P)
      rw [he] at hg
      by_cases hu : env.urlParses (c.Endpoint ++ c.getQueryParams domain W S P) = true
      · right
        rw [if_pos hu] at hc
        refine ⟨_, hcalls.trans hc, ?_⟩
        cases hdo : c.doer env _ with
        | error e2 =>
          left
          have := get_of_transport_error env c _ _ e2 hc hdo
          rw [this] at hg
          simp only [Prod.mk.injEq] at hg
          rw [Option.some.inj hg.2]
        | ok res =>
          right
          refine ⟨res, rfl, ?_⟩
          have hr := get_of_response env c _ _ res hc hdo
          by_cases h429 : res.StatusCode = 429
          · left
            rw [if_pos h429, Prod.mk.injEq] at hr
            rw [hr.2] at hg
            simp only [Prod.mk.injEq] at hg
            exact ⟨h429, (Option.some.inj hg.2)⟩
          · by_cases h200 : res.StatusCode = 200
            · right
              right
              rw [if_neg h429, if_neg (by simp [h200]), Prod.mk.injEq] at hr
              rw [hr.2, hr.1] at hg
              cases hbe : res.Body.err with
              | some e3 =>
                left
                rw [hbe] at hg
                simp only [Prod.mk.injEq] at hg
                exact ⟨h200, by rw [Option.some.inj hg.2]⟩
              | none =>
                right
                rw [hbe] at hg
                refine ⟨h200, rfl, ?_⟩
                simp only [Option.getD_some] at hg
                cases hum : Unmarshal res.Body.data none with
                | ok v =>
                  rw [hum] at hg
                  simp at hg
                | saved v e4 =>
                  rw [hum] at hg
                  simp only [Prod.mk.injEq] at hg
                  exact Or.inl ⟨v, by rw [Option.some.inj hg.2]⟩
                | abort e4 =>
                  rw [hum] at hg
                  simp only [Prod.mk.injEq] at hg
                  exact Or.inr (by rw [Option.some.inj hg.2])
            · right
              left
              rw [if_neg h429, if_pos h200, Prod.mk.injEq] at hr
              rw [hr.2] at hg
              simp only [Prod.mk.injEq] at hg
              exact ⟨h200, h429, (Option.some.inj hg.2)⟩
      · left
        have hu2 : env.urlParses (c.Endpoint ++ c.getQueryParams domain W S P) = false := by
          simpa using hu
        have := get_of_bad_url env c _ hu2
        rw [this] at hg
        simp only [Prod.mk.injEq] at hg
        exact ⟨(Option.some.inj hg.2), hu2⟩
    · left
      have hv2 : IsDNSName env.IsIP domain = false := by simpa using hv
      simp only [CertspotterClient.GetIssuances, hv2, Bool.not_false, if_true] at he
      exact ⟨(Option.some.inj he).symm, hv2⟩
  · intro ra code
    refine ⟨by simp [ErrorInvalidDomain], by simp [ErrorInvalidDomain],
      by simp [GoError.kind, GoError.isInvalidDomain, ErrorInvalidDomain], rfl, ?_⟩
    intro h
    have h2 := congrArg String.toList h
    rw [toList_append, toList_append] at h2
    exact absurd (List.head_eq_of_cons_eq h2) (by decide)

/-- C10 as amended, at a concrete input: the error of a 429 response with
`Retry-After: 120` is not the sentinel and has the kind of the error of a 500
response. -/
theorem GetIssuances_error_forms_witness :
    (CertspotterClient.GetIssuances sampleEnv
        ⟨"", "", some (cannedClient 429 ⟨[("Retry-After", ["120"])]⟩ "")⟩
        "example.com" false false 0).err
      = some (.errorf "hit Cert Spotter\x27s API limit. Retry-After: 120")
    ∧ GoError.errorf ("hit Cert Spotter\x27s API limit. Retry-After: " ++ "120")
        ≠ ErrorInvalidDomain
    ∧ (GoError.errorf ("hit Cert Spotter\x27s API limit. Retry-After: " ++ "120")).kind
        = (GoError.errorf ("undocumented status code returned by the Cert Spotter API: "
            ++ fmtInt 500)).kind :=
  ⟨by decide,
    ((GetIssuances_error_forms sampleEnv
      ⟨"", "", some (cannedClient 429 ⟨[("Retry-After", ["120"])]⟩ "")⟩
      "example.com" false false 0
      (.errorf "hit Cert Spotter\x27s API limit. Retry-After: 120") (by decide)).2 "120" 500).1,
    ((GetIssuances_error_forms sampleEnv
      ⟨"", "", some (cannedClient 429 ⟨[("Retry-After", ["120"])]⟩ "")⟩
      "example.com" false false 0
      (.errorf "hit Cert Spotter\x27s API limit. Retry-After: 120") (by decide)).2 "120" 500).2.2.2.1⟩

/-! ## Well-formed objects decode to what they describe (towards C7) -/

/-- The value of a text of digits with one more digit. -/
theorem digitsVal_snoc (l : List Char) (c : Char) :
    digitsVal (l ++ [c]) = 10 * digitsVal l + (c.toNat - 48) := by
  simp [digitsVal, List.foldl_append]

/-- The decimal digit of a number below ten stands for that number. -/
theorem digitChar_val (d : Nat) (h : d < 10) : (Nat.digitChar d).toNat - 48 = d := by
  interval_cases d <;> rfl

/-- The digits `toDigitsCore` puts before digits spell the number. -/
theorem toDigitsCore_val : ∀ (fuel n : Nat) (ds : List Char), n < fuel →
    ∃ L : List Char, Nat.toDigitsCore 10 fuel n ds = L ++ ds ∧ L ≠ []
      ∧ L.all Char.isDigit = true ∧ digitsVal L = n
  | 0, _, _, h => absurd h (Nat.not_lt_zero _)
  | fuel + 1, n, ds, h => by
    simp only [Nat.toDigitsCore]
    split
    · rename_i h0
      refine ⟨[Nat.digitChar (n % 10)], rfl, by simp, ?_, ?_⟩
      · simp [digitChar_isDigit _ (Nat.mod_lt n (by decide))]
      · have := digitsVal_snoc [] (Nat.digitChar (n % 10))
        simp only [List.nil_append] at this
        rw [this, digitChar_val _ (Nat.mod_lt n (by decide))]
        have : digitsVal [] = 0 := rfl
        rw [this]
        omega
    · rename_i h0
      have hlt : n / 10 < fuel := by omega
      obtain ⟨L, hL, hne, hdig, hval⟩ :=
        toDigitsCore_val fuel (n / 10) (Nat.digitChar (n % 10) :: ds) hlt
      refine ⟨L ++ [Nat.digitChar (n % 10)], ?_, by simp, ?_, ?_⟩
      · rw [hL]
        simp
      · simp only [List.all_append, hdig, List.all_cons, List.all_nil, Bool.and_true,
          Bool.true_and]
        exact digitChar_isDigit _ (Nat.mod_lt n (by decide))
      · rw [digitsVal_snoc, hval, digitChar_val _ (Nat.mod_lt n (by decide))]
        omega

/-- The decimal rendering of a natural number is a non-empty text of digits
that spells the number. -/
theorem repr_val (n : Nat) :
    (Nat.repr n).toList ≠ [] ∧ (Nat.repr n).toList.all Char.isDigit = true
      ∧ digitsVal (Nat.repr n).toList = n := by
  have h : (Nat.repr n).toList = Nat.toDigitsCore 10 (n + 1) n [] := rfl
  obtain ⟨L, hL, hne, hdig, hval⟩ := toDigitsCore_val (n + 1) n [] (Nat.lt_succ_self n)
  rw [h, hL, List.append_nil]
  exact ⟨hne, hdig, hval⟩

/-- A non-empty text of digits is read as its value. -/
theorem readInt_digits (l : List Char) (hne : l ≠ []) (hd : l.all Char.isDigit = true) :
    readInt l = some (digitsVal l : Int) := by
  cases l with
  | nil => exact absurd rfl hne
  | cons c cs =>
    have hc : c ≠ '-' := by
      rintro rfl
      simp [Char.isDigit] at hd
    unfold readInt
    split
    · rename_i heq
      exact absurd (List.cons.inj heq).1 hc
    · simp [hd]

/-- The decimal text of an integer, as `%d` writes it, is read back as that
integer. -/
theorem readInt_fmtInt (n : Int) : readInt (fmtInt n).toList = some n := by
  cases n with
  | ofNat m =>
    have h : (fmtInt (Int.ofNat m)).toList = (Nat.repr m).toList := rfl
    obtain ⟨hne, hd, hv⟩ := repr_val m
    rw [h, readInt_digits _ hne hd, hv]
    rfl
  | negSucc m =>
    have h : (fmtInt (Int.negSucc m)).toList = '-' :: (Nat.repr (m + 1)).toList := by
      show ("-" ++ Nat.repr (m + 1)).toList = _
      rw [toList_append]
      rfl
    obtain ⟨hne, hd, hv⟩ := repr_val (m + 1)
    have he : (Nat.repr (m + 1)).toList.isEmpty = false := by
      cases hl : (Nat.repr (m + 1)).toList with
      | nil => exact absurd hl hne
      | cons _ _ => rfl
    rw [h]
    simp only [readInt, he, hd, Bool.not_false, Bool.and_self, if_true, hv, Option.some.injEq]
    rfl

/-- The text after the opening of the rate-limit message is what the message
carries. -/
theorem retryAfterOf_errorf (v : String) :
    GoError.retryAfterOf (.errorf ("hit Cert Spotter\x27s API limit. Retry-After: " ++ v))
      = some v := by
  have ht : ("hit Cert Spotter\x27s API limit. Retry-After: " ++ v).toList.take 43
      = "hit Cert Spotter\x27s API limit. Retry-After: ".toList := by
    rw [toList_append]
    exact List.take_left' (by decide)
  have hd : ("hit Cert Spotter\x27s API limit. Retry-After: " ++ v).toList.drop 43
      = v.toList := by
    rw [toList_append]
    exact List.drop_left' (by decide)
  simp only [GoError.retryAfterOf, ht, hd, if_true]
  rfl

/-- A rate-limit message is not a status message: the two openings differ in
their first character. -/
theorem statusCodeOf_rate_limit (v : String) :
    GoError.statusCodeOf (.errorf ("hit Cert Spotter\x27s API limit. Retry-After: " ++ v))
      = none := by
  have hne : ("hit Cert Spotter\x27s API limit. Retry-After: " ++ v).toList.take 59
      ≠ "undocumented status code returned by the Cert Spotter API: ".toList := by
    rw [toList_append]
    intro h
    have h0 := congrArg List.head? h
    simp at h0
  simp only [GoError.statusCodeOf, hne, if_false]

/-- The integer after the opening of the status message is what the message
carries. -/
theorem statusCodeOf_errorf (n : Int) :
    GoError.statusCodeOf
        (.errorf ("undocumented status code returned by the Cert Spotter API: " ++ fmtInt n))
      = some n := by
  have ht : ("undocumented status code returned by the Cert Spotter API: "
        ++ fmtInt n).toList.take 59
      = "undocumented status code returned by the Cert Spotter API: ".toList := by
    rw [toList_append]
    exact List.take_left' (by decide)
  have hd : ("undocumented status code returned by the Cert Spotter API: "
        ++ fmtInt n).toList.drop 59 = (fmtInt n).toList := by
    rw [toList_append]
    exact List.drop_left' (by decide)
  simp only [GoError.statusCodeOf, ht, hd, if_true, readInt_fmtInt]

/-- A status message is not a rate-limit message. -/
theorem retryAfterOf_status (t : String) :
    GoError.retryAfterOf
        (.errorf ("undocumented status code returned by the Cert Spotter API: " ++ t))
      = none := by
  have hne : ("undocumented status code returned by the Cert Spotter API: " ++ t).toList.take 43
      ≠ "hit Cert Spotter\x27s API limit. Retry-After: ".toList := by
    rw [toList_append]
    intro h
    have h0 := congrArg List.head? h
    simp at h0
  simp only [GoError.retryAfterOf, hne, if_false]

/-! ## Rate limiting (C3) -/

/-- C3. For every valid domain and every response of status 429 that the
transport gives to the request it was handed, whatever the body of the
response, `GetIssuances` returns the nil slice and the rate-limit error
carrying exactly the value of the `Retry-After` header. The package has no
error type of its own: the rate-limit error is the value made by `fmt.Errorf`
whose message opens with `hit Cert Spotter's API limit. Retry-After: `, and
the value it carries is the rest of the message (`retryAfterOf`). When the
header map of the response holds the values `v :: vs` under `Retry-After`, the
error is the one with the message `hit Cert Spotter's API limit. Retry-After: `
followed by `v`, and it carries `v`; when the map holds nothing under the key
(no entry, or an entry with no value), the error is the one with the bare
opening as its message, and it carries the empty text. In each case the error
is neither the sentinel `ErrorInvalidDomain` nor an unexpected-status error.
The body takes no part in the result: the statement holds for every body. -/
theorem GetIssuances_rate_limited (env : Env) (c : CertspotterClient) (domain : String)
    (W S : Bool) (P : Nat) (req : Request) (res : Response)
    (hv : IsDNSName env.IsIP domain = true)
    (hcall : (c.GetIssuances env domain W S P).calls = [req])
    (hdo : c.doer env req = .ok res)
    (hs : res.StatusCode = 429) :
    (c.GetIssuances env domain W S P).issuances = none
    ∧ (∀ (v : String) (vs : List String),
        res.Header.entries.lookup "Retry-After" = some (v :: vs) →
        (c.GetIssuances env domain W S P).err
            = some (.errorf ("hit Cert Spotter\x27s API limit. Retry-After: " ++ v))
        ∧ (c.GetIssuances env domain W S P).err.bind GoError.retryAfterOf = some v)
    ∧ (res.Header.entries.lookup "Retry-After" = none
          ∨ res.Header.entries.lookup "Retry-After" = some [] →
        (c.GetIssuances env domain W S P).err
            = some (.errorf "hit Cert Spotter\x27s API limit. Retry-After: ")
        ∧ (c.GetIssuances env domain W S P).err.bind GoError.retryAfterOf = some "")
    ∧ (∃ msg : String, (c.GetIssuances env domain W S P).err = some (.errorf msg)
        ∧ msg = "hit Cert Spotter\x27s API limit. Retry-After: " ++ res.Header.Get "Retry-After"
        ∧ msg.toList.drop 43 = (res.Header.Get "Retry-After").toList)
    ∧ (∀ e : GoError, (c.GetIssuances env domain W S P).err = some e →
        e.retryAfterOf ≠ none ∧ e.statusCodeOf = none ∧ e.isInvalidDomain = false
        ∧ e.dynType = "*errors.errorString") := by
  have hg := GetIssuances_of_response env c domain W S P req res hv hcall hdo
  rw [if_pos hs, Prod.mk.injEq] at hg
  refine ⟨hg.1, ?_, ?_, ⟨_, hg.2, rfl, ?_⟩, ?_⟩
  · intro v vs hl
    have hget : res.Header.Get "Retry-After" = v := by
      simp only [Header.Get, hl]
    rw [hg.2, hget]
    exact ⟨rfl, retryAfterOf_errorf v⟩
  · intro hl
    have hget : res.Header.Get "Retry-After" = "" := by
      rcases hl with hl | hl <;> simp only [Header.Get, hl]
    rw [hg.2, hget]
    exact ⟨rfl, retryAfterOf_errorf ""⟩
  · rw [toList_append]
    exact List.drop_left' (by decide)
  · intro e he
    rw [hg.2, Option.some.injEq] at he
    subst he
    refine ⟨?_, statusCodeOf_rate_limit _, rfl, rfl⟩
    rw [retryAfterOf_errorf]
    exact Option.some_ne_none _

/-- C3 at concrete inputs: the domain `example.com` and a transport that
answers 429 with `Retry-After: 120` and a body that is not JSON gives the nil
slice and the error `hit Cert Spotter's API limit. Retry-After: 120`, which
carries `120`; a transport that answers 429 without the header gives the error
`hit Cert Spotter's API limit. Retry-After: `, which carries the empty text. -/
theorem GetIssuances_rate_limited_witness :
    (CertspotterClient.GetIssuances sampleEnv
        ⟨"https://api.certspotter.com/v1/issuances", "",
          some (cannedClient 429 ⟨[("Retry-After", ["120"])]⟩ "slow down")⟩
        "example.com" false false 0).issuances = none
    ∧ (CertspotterClient.GetIssuances sampleEnv
        ⟨"https://api.certspotter.com/v1/issuances", "",
          some (cannedClient 429 ⟨[("Retry-After", ["120"])]⟩ "slow down")⟩
        "example.com" false false 0).err
        = some (.errorf "hit Cert Spotter\x27s API limit. Retry-After: 120")
    ∧ (CertspotterClient.GetIssuances sampleEnv
        ⟨"https://api.certspotter.com/v1/issuances", "",
          some (cannedClient 429 ⟨[("Retry-After", ["120"])]⟩ "slow down")⟩
        "example.com" false false 0).err.bind GoError.retryAfterOf = some "120"
    ∧ (CertspotterClient.GetIssuances sampleEnv
        ⟨"https://api.certspotter.com/v1/issuances", "",
          some (cannedClient 429 ⟨[("Content-Type", ["text/plain"])]⟩ "[]")⟩
        "example.com" false false 0).issuances = none
    ∧ (CertspotterClient.GetIssuances sampleEnv
        ⟨"https://api.certspotter.com/v1/issuances", "",
          some (cannedClient 429 ⟨[("Content-Type", ["text/plain"])]⟩ "[]")⟩
        "example.com" false false 0).err
        = some (.errorf "hit Cert Spotter\x27s API limit. Retry-After: ")
    ∧ (CertspotterClient.GetIssuances sampleEnv
        ⟨"https://api.certspotter.com/v1/issuances", "",
          some (cannedClient 429 ⟨[("Content-Type", ["text/plain"])]⟩ "[]")⟩
        "example.com" false false 0).err.bind GoError.retryAfterOf = some "" :=
  have h1 := GetIssuances_rate_limited sampleEnv
    ⟨"https://api.certspotter.com/v1/issuances", "",
      some (cannedClient 429 ⟨[("Retry-After", ["120"])]⟩ "slow down")⟩
    "example.com" false false 0
    ⟨"GET", "https://api.certspotter.com/v1/issuances?expand=dns_names&expand=issuer&expand=cert&expand=pubkey&domain=example.com", ⟨[]⟩⟩
    ⟨429, ⟨[("Retry-After", ["120"])]⟩, ⟨"slow down", none⟩⟩
    (by decide) (by decide) rfl rfl
  have h2 := GetIssuances_rate_limited sampleEnv
    ⟨"https://api.certspotter.com/v1/issuances", "",
      some (cannedClient 429 ⟨[("Content-Type", ["text/plain"])]⟩ "[]")⟩
    "example.com" false false 0
    ⟨"GET", "https://api.certspotter.com/v1/issuances?expand=dns_names&expand=issuer&expand=cert&expand=pubkey&domain=example.com", ⟨[]⟩⟩
    ⟨429, ⟨[("Content-Type", ["text/plain"])]⟩, ⟨"[]", none⟩⟩
    (by decide) (by decide) rfl rfl
  ⟨h1.1, (h1.2.1 "120" [] (by decide)).1, (h1.2.1 "120" [] (by decide)).2,
    h2.1, (h2.2.2.1 (Or.inl (by decide))).1, (h2.2.2.1 (Or.inl (by decide))).2⟩

/-! ## Other status codes (C4) -/

/-- C4. For every valid domain and every response the transport gives to the
request it was handed, whatever its body: when the status code is neither 200
nor 429 (500, or another 2xx code such as 204), `GetIssuances` returns the nil
slice and the unexpected-status error carrying that status code. The package
has no error type of its own: the unexpected-status error is the value made by
`fmt.Errorf` whose message is
`undocumented status code returned by the Cert Spotter API: ` followed by the
status code in decimal (the digits of `Nat.repr` for a code that is not
negative, after a minus sign for a negative one), and the code it carries is
the integer the rest of the message spells (`statusCodeOf`), which is the
status code of the response. The error is neither the sentinel
`ErrorInvalidDomain` nor a rate-limit error. And only the status 200 goes on
to the body: then the result is the reading error of the body, or what
`json.Unmarshal` makes of the bytes read. -/
theorem GetIssuances_unexpected_status (env : Env) (c : CertspotterClient) (domain : String)
    (W S : Bool) (P : Nat) (req : Request) (res : Response)
    (hv : IsDNSName env.IsIP domain = true)
    (hcall : (c.GetIssuances env domain W S P).calls = [req])
    (hdo : c.doer env req = .ok res) :
    (res.StatusCode ≠ 200 → res.StatusCode ≠ 429 →
      (c.GetIssuances env domain W S P).issuances = none
      ∧ (∀ n : Nat, res.StatusCode = (n : Int) →
          (c.GetIssuances env domain W S P).err
            = some (.errorf ("undocumented status code returned by the Cert Spotter API: "
                ++ Nat.repr n)))
      ∧ (∀ n : Nat, res.StatusCode = -((n : Int) + 1) →
          (c.GetIssuances env domain W S P).err
            = some (.errorf ("undocumented status code returned by the Cert Spotter API: "
                ++ "-" ++ Nat.repr (n + 1))))
      ∧ (c.GetIssuances env domain W S P).err.bind GoError.statusCodeOf = some res.StatusCode
      ∧ (∃ msg : String, (c.GetIssuances env domain W S P).err = some (.errorf msg)
          ∧ msg = "undocumented status code returned by the Cert Spotter API: "
              ++ fmtInt res.StatusCode
          ∧ msg.toList.drop 59 = (fmtInt res.StatusCode).toList
          ∧ readInt (msg.toList.drop 59) = some res.StatusCode)
      ∧ (∀ e : GoError, (c.GetIssuances env domain W S P).err = some e →
          e.statusCodeOf ≠ none ∧ e.retryAfterOf = none ∧ e.isInvalidDomain = false
          ∧ e.dynType = "*errors.errorString"))
    ∧ (res.StatusCode = 200 →
      ((c.GetIssuances env domain W S P).issuances, (c.GetIssuances env domain W S P).err) =
        match res.Body.err with
        | some e => (none, some e)
        | none =>
          match Unmarshal res.Body.data none with
          | .ok issuances => (issuances, none)
          | .saved _ e => (none, some e)
          | .abort e => (none, some e)) := by
  have h := GetIssuances_of_response env c domain W S P req res hv hcall hdo
  constructor
  · intro h200 h429
    rw [if_neg h429, if_pos h200, Prod.mk.injEq] at h
    have hdrop : ("undocumented status code returned by the Cert Spotter API: "
          ++ fmtInt res.StatusCode).toList.drop 59 = (fmtInt res.StatusCode).toList := by
      rw [toList_append]
      exact List.drop_left' (by decide)
    refine ⟨h.1, ?_, ?_, ?_, ⟨_, h.2, rfl, hdrop, ?_⟩, ?_⟩
    · intro n hn
      rw [h.2, hn]
      rfl
    · intro n hn
      have hneg : res.StatusCode = Int.negSucc n := by
        rw [hn, Int.negSucc_eq]
      rw [h.2, hneg]
      show some (GoError.errorf ("undocumented status code returned by the Cert Spotter API: "
        ++ ("-" ++ Nat.repr (n + 1)))) = _
      rw [String.append_assoc]
    · rw [h.2]
      exact statusCodeOf_errorf _
    · rw [hdrop]
      exact readInt_fmtInt _
    · intro e he
      rw [h.2, Option.some.injEq] at he
      subst he
      refine ⟨?_, retryAfterOf_status _, rfl, rfl⟩
      rw [statusCodeOf_errorf]
      exact Option.some_ne_none _
  · intro h200
    have h429 : ¬ res.StatusCode = 429 := by
      rw [h200]
      decide
    rw [if_neg h429, if_neg (by simp [h200])] at h
    exact h

/-- C4 at concrete inputs: the domain `example.com` and a transport that
answers `500` with an empty body gives the nil slice and the error
`undocumented status code returned by the Cert Spotter API: 500`, which
carries the code 500; a transport that answers `204` with the body `[]` gives
the nil slice and the error with the code 204. -/
theorem GetIssuances_unexpected_status_witness :
    (CertspotterClient.GetIssuances sampleEnv ⟨"", "tok", some (cannedClient 500 ⟨[]⟩ "")⟩
        "example.com" true false 7).issuances = none
    ∧ (CertspotterClient.GetIssuances sampleEnv ⟨"", "tok", some (cannedClient 500 ⟨[]⟩ "")⟩
        "example.com" true false 7).err
        = some (.errorf "undocumented status code returned by the Cert Spotter API: 500")
    ∧ (CertspotterClient.GetIssuances sampleEnv ⟨"", "tok", some (cannedClient 500 ⟨[]⟩ "")⟩
        "example.com" true false 7).err.bind GoError.statusCodeOf = some 500
    ∧ (CertspotterClient.GetIssuances sampleEnv ⟨"", "tok", some (cannedClient 204 ⟨[]⟩ "[]")⟩
        "example.com" true false 7).issuances = none
    ∧ (CertspotterClient.GetIssuances sampleEnv ⟨"", "tok", some (cannedClient 204 ⟨[]⟩ "[]")⟩
        "example.com" true false 7).err
        = some (.errorf "undocumented status code returned by the Cert Spotter API: 204")
    ∧ (CertspotterClient.GetIssuances sampleEnv ⟨"", "tok", some (cannedClient 204 ⟨[]⟩ "[]")⟩
        "example.com" true false 7).err.bind GoError.statusCodeOf = some 204 :=
  have h1 := (GetIssuances_unexpected_status sampleEnv
    ⟨"", "tok", some (cannedClient 500 ⟨[]⟩ "")⟩ "example.com" true false 7
    ⟨"GET", "?expand=dns_names&expand=issuer&expand=cert&expand=pubkey&domain=example.com&after=7&match_wildcards=true",
      ⟨[("Authorization", ["Bearer tok"])]⟩⟩
    ⟨500, ⟨[]⟩, ⟨"", none⟩⟩
    (by decide) (by decide) rfl).1 (by decide) (by decide)
  have h2 := (GetIssuances_unexpected_status sampleEnv
    ⟨"", "tok", some (cannedClient 204 ⟨[]⟩ "[]")⟩ "example.com" true false 7
    ⟨"GET", "?expand=dns_names&expand=issuer&expand=cert&expand=pubkey&domain=example.com&after=7&match_wildcards=true",
      ⟨[("Authorization", ["Bearer tok"])]⟩⟩
    ⟨204, ⟨[]⟩, ⟨"[]", none⟩⟩
    (by decide) (by decide) rfl).1 (by decide) (by decide)
  ⟨h1.1, h1.2.1 500 rfl, h1.2.2.2.1, h2.1, h2.2.1 204 rfl, h2.2.2.2.1⟩

/-! ## Which bodies `json.Unmarshal` accepts (towards C5) -/

end Certspotter
